import Mathlib

/-!
Verification development for the Sentinel workflow-orchestration core
(`backend/app/agents/orchestrator.py` and the four agent modules).

The Python code is shallowly embedded: dictionaries become structures with
`Option` fields (a `none` field models an absent key), byte strings become
`List Nat`, wall-clock instants become `Int` seconds, and every external
collaborator (speech service, document-understanding / completion API) is a
parameter of the embedded function.  Python string primitives (`str.lower`,
`str.strip`, `str.split`, the `in` substring test) are modelled over the
character list of a `String` so that their behaviour is fully explicit.
-/

namespace Sentinel

/-! ## Python string primitives -/

/-- Whitespace characters recognised by `str.strip()` / the JSON grammar
(ASCII space, tab, newline, carriage return). -/
def isWsChar (c : Char) : Bool :=
  c = ' ' || c = '\t' || c = '\n' || c = '\r'

/-- `str.strip()` on a character list: drop whitespace at both ends. -/
def stripChars (cs : List Char) : List Char :=
  ((cs.dropWhile isWsChar).reverse.dropWhile isWsChar).reverse

/-- `str.strip()`. -/
def pyStrip (s : String) : String := ⟨stripChars s.data⟩

/-- `str.lower()` (ASCII casing suffices for the keyword checks modelled here). -/
def pyLower (s : String) : String := ⟨s.data.map Char.toLower⟩

/-- Does `sep` occur at the head of `cs`? -/
def headMatches : List Char → List Char → Bool
  | [], _ => true
  | _ :: _, [] => false
  | s :: ss, c :: cs => s = c && headMatches ss cs

/-- Worker for `str.split(sep)`: leftmost, non-overlapping occurrences.
`fuel` only bounds the recursion; `cs.length + 1` is always enough because
every step consumes at least one character. -/
def splitGo (sep : List Char) : Nat → List Char → List Char → List (List Char)
  | _, [], acc => [acc.reverse]
  | 0, cs, acc => [acc.reverse ++ cs]
  | fuel + 1, c :: cs, acc =>
    if headMatches sep (c :: cs) then
      acc.reverse :: splitGo sep fuel (List.drop (sep.length - 1) cs) []
    else
      splitGo sep fuel cs (c :: acc)

/-- `str.split(sep)` over character lists (`sep` is never empty at call sites). -/
def splitOnL (sep cs : List Char) : List (List Char) :=
  splitGo sep (cs.length + 1) cs []

/-- `str.split(sep)`. -/
def pySplit (s sep : String) : List String :=
  (splitOnL sep.data s.data).map (fun cs => ⟨cs⟩)

/-- The Python substring test `needle in hay` (for a non-empty needle):
`hay.split(needle)` has at least two parts iff the needle occurs. -/
def pyContains (hay needle : String) : Bool :=
  2 ≤ (pySplit hay needle).length

/-- Python `parts[0]` after a `split` (a split result is never empty). -/
def pyPart0 (l : List String) : String := l.headD ""

/-- Python `parts[1]` after a `split` guarded by an `in` test. -/
def pyPart1 (l : List String) : String := (l.drop 1).headD ""

/-! ## A model of `json.loads`

The stages decode completion text with Python's `json.loads` (default,
strict mode).  The decoder is embedded in full: strings with the JSON
escapes including `\uXXXX` (surrogate pairs combined), arrays, objects,
numbers (integer forms decode to `jnum`; fractional/exponent forms and the
CPython extras `Infinity` / `-Infinity` / `NaN` decode to `jfloat` carrying
the numeral lexeme — the IEEE value of a float is outside the embedding,
only decode success/failure is modelled), booleans and null.  Raw control
characters inside strings are rejected, as in strict mode.  The one
unmodelled corner: a `\uXXXX` escape denoting a lone UTF-16 surrogate is
accepted by CPython but the resulting unpaired-surrogate string is not
representable as a Lean `String`; it maps to a parse failure here. -/

inductive JVal where
  | jnull : JVal
  | jbool (b : Bool) : JVal
  | jnum (n : Int) : JVal
  | jfloat (lexeme : String) : JVal
  | jstr (s : String) : JVal
  | jarr (xs : List JVal) : JVal
  | jobj (kvs : List (String × JVal)) : JVal

/-- The opening-brace / closing-brace characters (written by code so the
source file stays brace-free outside strings). -/
def lbraceChar : Char := Char.ofNat 123

def rbraceChar : Char := Char.ofNat 125

/-- Skip JSON whitespace. -/
def skipWs : List Char → List Char
  | c :: cs => if isWsChar c then skipWs cs else c :: cs
  | [] => []

/-- One-character JSON escapes. -/
def unescape (c : Char) : Option Char :=
  if c = '"' then some '"'
  else if c = '\\' then some '\\'
  else if c = '/' then some '/'
  else if c = 'n' then some '\n'
  else if c = 't' then some '\t'
  else if c = 'r' then some '\r'
  else if c = 'b' then some (Char.ofNat 8)
  else if c = 'f' then some (Char.ofNat 12)
  else none

/-- Value of a hexadecimal digit (`[0-9a-fA-F]`). -/
def hexDigitVal (c : Char) : Option Nat :=
  if '0' ≤ c ∧ c ≤ '9' then some (c.toNat - 48)
  else if 'a' ≤ c ∧ c ≤ 'f' then some (c.toNat - 87)
  else if 'A' ≤ c ∧ c ≤ 'F' then some (c.toNat - 55)
  else none

/-- Decode one `\uXXXX` escape (the `\u` already consumed): four hex digits,
with a high surrogate requiring an immediately following low-surrogate escape
(the pair combines into one scalar); a lone surrogate fails (see the section
comment).  Returns the decoded character and the remaining input. -/
def parseUEscape (cs : List Char) : Option (Char × List Char) :=
  match cs with
  | h1 :: h2 :: h3 :: h4 :: rest2 =>
    match hexDigitVal h1, hexDigitVal h2, hexDigitVal h3, hexDigitVal h4 with
    | some v1, some v2, some v3, some v4 =>
      let n := ((v1 * 16 + v2) * 16 + v3) * 16 + v4
      if 55296 ≤ n ∧ n ≤ 56319 then
        -- high surrogate: a low-surrogate escape must follow
        match rest2 with
        | '\\' :: 'u' :: k1 :: k2 :: k3 :: k4 :: rest3 =>
          match hexDigitVal k1, hexDigitVal k2, hexDigitVal k3, hexDigitVal k4 with
          | some w1, some w2, some w3, some w4 =>
            let m := ((w1 * 16 + w2) * 16 + w3) * 16 + w4
            if 56320 ≤ m ∧ m ≤ 57343 then
              some (Char.ofNat (65536 + (n - 55296) * 1024 + (m - 56320)), rest3)
            else none
          | _, _, _, _ => none
        | _ => none
      else if 56320 ≤ n ∧ n ≤ 57343 then none  -- lone low surrogate
      else some (Char.ofNat n, rest2)
    | _, _, _, _ => none
  | _ => none

/-- Parse a JSON string body (the opening quote already consumed); returns the
decoded characters and the remainder after the closing quote.  Strict mode:
raw control characters (below 0x20) must be escaped.  `fuel` only bounds the
recursion: every step consumes at least one character, so `input length + 1`
(what every call site passes) is always enough and the fuel-exhaustion arm is
unreachable. -/
def parseStringBody : Nat → List Char → Option (List Char × List Char)
  | _, [] => none
  | 0, _ :: _ => none
  | fuel + 1, c :: rest =>
    if c = '"' then some ([], rest)
    else if c = '\\' then
      match rest with
      | [] => none
      | e :: rest' =>
        if e = 'u' then
          match parseUEscape rest' with
          | none => none
          | some (d, rest2) =>
            match parseStringBody fuel rest2 with
            | none => none
            | some (s, r) => some (d :: s, r)
        else
          match unescape e with
          | none => none
          | some d =>
            match parseStringBody fuel rest' with
            | none => none
            | some (s, r) => some (d :: s, r)
    else if c.toNat < 32 then none
    else
      match parseStringBody fuel rest with
      | none => none
      | some (s, r) => some (c :: s, r)

/-- Signed decimal value of a digit string. -/
def digitsVal (ds : List Char) : Int :=
  ds.foldl (fun n c => 10 * n + ((c.toNat : Int) - 48)) 0

/-- The optional fraction part of a JSON number: `.` followed by at least one
digit, else nothing is consumed (CPython's number regex backtracks the same
way, leaving a bare `.` to the surrounding context). -/
def parseFracPart (cs : List Char) : List Char × List Char :=
  match cs with
  | '.' :: ds =>
    let digs := ds.takeWhile Char.isDigit
    if digs = [] then ([], cs) else ('.' :: digs, ds.dropWhile Char.isDigit)
  | _ => ([], cs)

/-- The optional exponent part of a JSON number: `e`/`E`, an optional sign,
then at least one digit; else nothing is consumed. -/
def parseExpPart (cs : List Char) : List Char × List Char :=
  match cs with
  | e :: rest =>
    if e = 'e' ∨ e = 'E' then
      match rest with
      | s :: rest2 =>
        if s = '+' ∨ s = '-' then
          let digs := rest2.takeWhile Char.isDigit
          if digs = [] then ([], cs)
          else (e :: s :: digs, rest2.dropWhile Char.isDigit)
        else
          let digs := rest.takeWhile Char.isDigit
          if digs = [] then ([], cs)
          else (e :: digs, rest.dropWhile Char.isDigit)
      | [] => ([], cs)
    else ([], cs)
  | [] => ([], cs)

/-- Build the number value from its parts: `jnum` for a pure integer form,
`jfloat` carrying the lexeme when a fraction or exponent is present. -/
def mkNum (neg : Bool) (intDigits : List Char) (cs : List Char) :
    Option (JVal × List Char) :=
  let (frac, cs1) := parseFracPart cs
  let (ex, cs2) := parseExpPart cs1
  if frac = [] ∧ ex = [] then
    some (.jnum ((if neg then -1 else 1) * digitsVal intDigits), cs2)
  else
    some (.jfloat ⟨(if neg then ['-'] else []) ++ intDigits ++ frac ++ ex⟩, cs2)

/-- Parse a JSON number after the optional minus sign: the integer part is a
single `0` or a nonzero digit followed by digits (a digit after a leading
`0` is left to the surrounding context, where it fails, as in CPython). -/
def parseNumber (neg : Bool) : List Char → Option (JVal × List Char)
  | c :: rest =>
    if c = '0' then mkNum neg ['0'] rest
    else if c.isDigit then
      mkNum neg (c :: rest.takeWhile Char.isDigit) (rest.dropWhile Char.isDigit)
    else none
  | [] => none

mutual

/-- Parse one JSON value; `fuel` bounds nesting/iteration and
`input length + 1` is always sufficient. -/
def parseJVal : Nat → List Char → Option (JVal × List Char)
  | 0, _ => none
  | fuel + 1, cs =>
    match skipWs cs with
    | [] => none
    | c :: r =>
      if c = '"' then
        match parseStringBody (r.length + 1) r with
        | some (b, r') => some (.jstr ⟨b⟩, r')
        | none => none
      else if c = '[' then
        match skipWs r with
        | ']' :: r' => some (.jarr [], r')
        | r' => match parseArrItems fuel r' with
          | some (xs, r'') => some (.jarr xs, r'')
          | none => none
      else if c = lbraceChar then
        match skipWs r with
        | r' =>
          if r'.headD ' ' = rbraceChar then some (.jobj [], r'.tail)
          else match parseObjItems fuel r' with
            | some (kvs, r'') => some (.jobj kvs, r'')
            | none => none
      else if c = 't' then
        match r with
        | 'r' :: 'u' :: 'e' :: r' => some (.jbool true, r')
        | _ => none
      else if c = 'f' then
        match r with
        | 'a' :: 'l' :: 's' :: 'e' :: r' => some (.jbool false, r')
        | _ => none
      else if c = 'n' then
        match r with
        | 'u' :: 'l' :: 'l' :: r' => some (.jnull, r')
        | _ => none
      else if c = 'I' then
        -- CPython extra constant
        match r with
        | 'n' :: 'f' :: 'i' :: 'n' :: 'i' :: 't' :: 'y' :: r' =>
          some (.jfloat "Infinity", r')
        | _ => none
      else if c = 'N' then
        -- CPython extra constant
        match r with
        | 'a' :: 'N' :: r' => some (.jfloat "NaN", r')
        | _ => none
      else if c = '-' then
        match r with
        | 'I' :: 'n' :: 'f' :: 'i' :: 'n' :: 'i' :: 't' :: 'y' :: r' =>
          some (.jfloat "-Infinity", r')
        | _ => parseNumber true r
      else if c.isDigit then
        parseNumber false (c :: r)
      else none

/-- Parse the comma-separated items of a non-empty JSON array, up to and
including the closing bracket. -/
def parseArrItems : Nat → List Char → Option (List JVal × List Char)
  | 0, _ => none
  | fuel + 1, cs =>
    match parseJVal fuel cs with
    | none => none
    | some (v, r) =>
      match skipWs r with
      | ',' :: r' =>
        match parseArrItems fuel r' with
        | some (vs, r'') => some (v :: vs, r'')
        | none => none
      | ']' :: r' => some ([v], r')
      | _ => none

/-- Parse the comma-separated members of a non-empty JSON object, up to and
including the closing brace. -/
def parseObjItems : Nat → List Char → Option (List (String × JVal) × List Char)
  | 0, _ => none
  | fuel + 1, cs =>
    match skipWs cs with
    | '"' :: r =>
      match parseStringBody (r.length + 1) r with
      | none => none
      | some (k, r') =>
        match skipWs r' with
        | ':' :: r'' =>
          match parseJVal fuel r'' with
          | none => none
          | some (v, r3) =>
            match skipWs r3 with
            | ',' :: r4 =>
              match parseObjItems fuel r4 with
              | some (kvs, r5) => some ((⟨k⟩, v) :: kvs, r5)
              | none => none
            | c :: r4 =>
              if c = rbraceChar then some ([(⟨k⟩, v)], r4) else none
            | [] => none
        | _ => none
    | _ => none

end

/-- `json.loads`: parse one value and require only whitespace to remain. -/
def json_loads (s : String) : Option JVal :=
  match parseJVal (s.data.length + 1) s.data with
  | some (v, rest) => if skipWs rest = [] then some v else none
  | none => none

/-! ## Data model (`SentinelState` and the record shapes it carries)

Mirrors the `SentinelState` TypedDict of
`backend/app/agents/orchestrator.py` and the dict shapes produced by the
agents.  Python dicts with a fixed key set become structures; a field that a
dict may lack is an `Option` with `none` for the missing key. -/

/-- The four-section structured note produced by the scribe stage. -/
structure SoapNote where
  subjective : Option String := none
  objective : Option String := none
  assessment : Option String := none
  plan : Option String := none
deriving DecidableEq

/-- The empty dict `{}` used to default the note. -/
def SoapNote.empty : SoapNote := {}

/-- A clinical-entity record (kind, name, value, unit).  The Python key is
`type`; that word is reserved in Lean, so the field is `etype`. -/
structure ClinicalEntity where
  etype : Option String := none
  name : Option String := none
  value : Option String := none
  unit : Option String := none
deriving DecidableEq

/-- An ICD-code record from the policy-audit stage. -/
structure CodeRec where
  code : Option String := none
  description : Option String := none
  specificity : Option String := none
  supporting_evidence : Option String := none
deriving DecidableEq

/-- A policy-gap record from the policy-audit stage. -/
structure GapRec where
  gap : Option String := none
  required_by_policy : Option String := none
  risk_level : Option String := none
  suggested_fix : Option String := none
deriving DecidableEq

/-- A preemptive-alert record from the policy-audit stage. -/
structure AlertRec where
  alert_type : Option String := none
  message : Option String := none
  action_required : Option String := none
  urgency : Option String := none
deriving DecidableEq

/-- One entry of the state's append-only `agent_logs` list.  The error-path
entries in the source carry no timestamp key, hence the `Option`. -/
structure LogEntry where
  agent : String
  status : String
  message : String
  timestamp : Option Int := none
deriving DecidableEq

/-- The JSON record `IntakeAgent._parse_response` decodes from the
document-understanding response (the extraction schema of the prompt).
`parse_error` marks the `(document_type = OTHER, parse_error = true)`
fallback value returned on a JSON decode failure. -/
structure Extraction where
  document_type : Option String := none
  patient_name : Option String := none
  account_number : Option String := none
  denial_reason : Option String := none
  denial_code : Option String := none
  appeal_deadline_days : Option Int := none
  peer_to_peer_available : Option Bool := none
  key_missing_criteria : List String := []
  urgency : Option String := none
  parse_error : Bool := false
deriving DecidableEq

/-- The empty dict `{}` used to default `denial_extraction`. -/
def Extraction.empty : Extraction := {}

/-- The complete workflow state (`SentinelState` TypedDict).  Bytes are
`List Nat`; the necessity score is a rational (the Python float `0.0` and the
scores in `[0,1]` are exactly representable). -/
structure SentinelState where
  case_id : String
  patient_name : String
  audio_bytes : Option (List Nat)
  dictation_text : Option String
  pdf_bytes : Option (List Nat)
  workflow_type : String
  raw_transcript : String
  soap_note : SoapNote
  clinical_entities : List ClinicalEntity
  proposed_treatments : List String
  chief_complaint : String
  icd_codes : List CodeRec
  policy_gaps : List GapRec
  preemptive_alerts : List AlertRec
  medical_necessity_score : ℚ
  denial_risk : String
  denial_detected : Bool
  denial_reason : String
  peer_to_peer_deadline : String
  denial_extraction : Extraction
  rebuttal_letter : String
  talking_points : List String
  current_agent : String
  agent_logs : List LogEntry
  error : String

/-- Python truthiness of an optional byte string (`None` and `b""` are falsy). -/
def truthyBytes : Option (List Nat) → Bool
  | none => false
  | some bs => !bs.isEmpty

/-- Python truthiness of an optional string (`None` and `""` are falsy). -/
def truthyStr : Option String → Bool
  | none => false
  | some s => s ≠ ""

/-! ## `CoderAgent._extract_diagnoses` (policy-audit keyword derivation) -/

namespace CoderAgent

/-- The per-entity contribution of the entity loop in
`CoderAgent._extract_diagnoses`: entities of kind diagnosis/symptom
contribute their name, plus `"cardiac"` when the name matches a cardiac
term. -/
def entityTerms (e : ClinicalEntity) : List String :=
  if e.etype = some "diagnosis" || e.etype = some "symptom" then
    let name := e.name.getD ""
    if name ≠ "" then
      name ::
        (if ["chest", "cardiac", "heart", "troponin", "coronary"].any
              (fun t => pyContains (pyLower name) t)
         then ["cardiac"] else [])
    else []
  else []

/-- Worker of the case-insensitive dedup loop: keep the first spelling seen
for each lowercased form, dropping entries that strip to the empty string;
`seen` accumulates lowercased forms already kept. -/
def dedupGo (seen : List String) : List String → List String
  | [] => []
  | d :: ds =>
    let dl := pyLower d
    if dl ∉ seen ∧ pyStrip d ≠ "" then
      d :: dedupGo (dl :: seen) ds
    else
      dedupGo seen ds

/-- The assessment-derived part of `CoderAgent._extract_diagnoses`: the
truthy assessment itself followed by the keyword-family expansions. -/
def baseFromAssessment : Option String → List String
  | some a =>
    if a ≠ "" then
      let al := pyLower a
      [a]
      ++ (if pyContains al "nstemi" || pyContains al "non-st elevation" then
            ["NSTEMI", "myocardial infarction", "acute coronary syndrome"]
          else [])
      ++ (if pyContains al "stemi" || pyContains al "st elevation" then
            ["STEMI", "myocardial infarction"]
          else [])
      ++ (if pyContains al "myocardial" || pyContains al "infarction" then
            ["cardiac", "coronary"]
          else [])
    else []
  | none => []

/-- `CoderAgent._extract_diagnoses(soap_note, entities)`: assessment-derived
terms, then per-entity terms, deduplicated case-insensitively and capped at
8. -/
def extract_diagnoses (soap_note : SoapNote) (entities : List ClinicalEntity) :
    List String :=
  (dedupGo []
    (baseFromAssessment soap_note.assessment ++ entities.flatMap entityTerms)).take 8

end CoderAgent

/-! ## `IntakeAgent.process` (document-classification stage)

The stage calls the document-understanding collaborator once per candidate
model name until one answers.  The collaborator is modelled as a function
from the attempt index to an outcome: a response (carrying the record that
`IntakeAgent._parse_response` decodes from its text — the decode fallback
`(OTHER, parse_error)` is one such record), a per-attempt timeout
(`asyncio.wait_for`), or a raised API error carrying `str(e)`.  The embedded
`process` also returns how many collaborator calls were attempted, so that
"no external call attempted" is statable.  `datetime.now()` at classification
completion is the `now : Int` parameter (seconds); `timedelta(days = d)` is
`86400 * d` seconds. -/

namespace IntakeAgent

/-- Outcome of one `client.messages.create` attempt. -/
inductive ApiOutcome where
  | ok (e : Extraction) : ApiOutcome
  | timeout : ApiOutcome
  | apiError (msg : String) : ApiOutcome

/-- The ordered fallback list of model identifiers. -/
def models_to_try : List String :=
  ["claude-3-5-sonnet-20240620", "claude-3-5-sonnet",
   "claude-3-opus-20240229", "claude-3-5-haiku-20241022"]

/-- The source's retryable-error test: the lowercased `str(e)` contains one
of the keywords `not_found`, `404`, `model`, `invalid`. -/
def isRetryableErr (msg : String) : Bool :=
  ["not_found", "404", "model", "invalid"].any
    (fun kw => pyContains (pyLower msg) kw)

/-- The error message recorded in `last_error` for an attempt that falls
through to the next candidate. -/
def attemptErrMsg (o : ApiOutcome) (model : String) : Option String :=
  match o with
  | .timeout => some ("Timeout waiting for " ++ model)
  | .apiError m => some m
  | .ok _ => none

/-- Result of the model-fallback loop. -/
inductive LoopOut where
  | success (e : Extraction) (calls : Nat) : LoopOut
  | fatal (msg : String) (calls : Nat) : LoopOut
  | exhausted (last_error : Option String) (calls : Nat) : LoopOut

/-- The `for model_name in models_to_try` loop.  `i` is the index of the next
attempt (also the number of calls already made); a non-retryable API error
re-raises and is caught by the stage's outer handler (`fatal`). -/
def modelLoop (env : Nat → ApiOutcome) : List String → Nat → Option String → LoopOut
  | [], i, le => .exhausted le i
  | m :: rest, i, _le =>
    match env i with
    | .ok e => .success e (i + 1)
    | .timeout => modelLoop env rest (i + 1) (attemptErrMsg .timeout m)
    | .apiError msg =>
      if isRetryableErr msg then modelLoop env rest (i + 1) (some msg)
      else .fatal msg (i + 1)

/-- The dict returned by `IntakeAgent.process`.  Failure returns carry only
`is_denial` / `extraction` / `error`; the success return carries no `error`
key.  `peer_to_peer_deadline` is the absolute deadline instant (the source
stores its ISO rendering). -/
structure IntakeResult where
  is_denial : Bool
  denial_reason : Option String := none
  peer_to_peer_deadline : Option Int := none
  extraction : Option Extraction := none
  urgency : Option String := none
  error : Option String := none
deriving DecidableEq

/-- The `No PDF provided` failure fragment. -/
def noPdfFrag : IntakeResult :=
  { is_denial := false, extraction := none, error := some "No PDF provided" }

/-- The oversize failure fragment (the source interpolates the size into the
message; the numeric rendering is elided here). -/
def tooLargeFrag : IntakeResult :=
  { is_denial := false, extraction := none
    error := some "PDF too large. Maximum size is 10MB." }

/-- The fragment returned when a non-retryable API error is raised and caught
by the outer handler (the source prefixes `type(e).__name__`; the type name
is elided and `str(e)` kept). -/
def fatalFrag (msg : String) : IntakeResult :=
  { is_denial := false, extraction := none, error := some msg }

/-- The fragment returned when every candidate model has been tried without a
response (the source also interpolates the candidate list repr, elided
here). -/
def exhaustedFrag (last_error : Option String) : IntakeResult :=
  { is_denial := false, extraction := none
    error := some ("Could not find a working Claude model. Last error: "
      ++ (match last_error with
          | some s => s.take 200
          | none => "Unknown")) }

/-- The success fragment: denial iff the extracted document type is DENIAL;
an absolute deadline only for a truthy (non-zero, non-null) extracted
offset-in-days. -/
def successFrag (now : Int) (e : Extraction) : IntakeResult :=
  { is_denial := e.document_type = some "DENIAL"
    denial_reason := e.denial_reason
    peer_to_peer_deadline :=
      match e.appeal_deadline_days with
      | some d => if d ≠ 0 then some (now + 86400 * d) else none
      | none => none
    extraction := some e
    urgency := some (e.urgency.getD "P2_MEDIUM")
    error := none }

/-- `IntakeAgent.process(pdf_bytes)`.  Returns the result dict together with
the number of document-understanding calls attempted.  The size gate
compares the raw byte count against 10 MiB (`len / (1024*1024) > 10`, exact
for power-of-two float division); base64-encoding of a byte string
(`standard_b64encode`) cannot fail and is not separately modelled. -/
def process (env : Nat → ApiOutcome) (now : Int) (pdf_bytes : Option (List Nat)) :
    IntakeResult × Nat :=
  match pdf_bytes with
  | none => (noPdfFrag, 0)
  | some pdf =>
    if pdf.length = 0 then (noPdfFrag, 0)
    else if 10 * 1024 * 1024 < pdf.length then (tooLargeFrag, 0)
    else
      match modelLoop env models_to_try 0 none with
      | .success e n => (successFrag now e, n)
      | .fatal msg n => (fatalFrag msg, n)
      | .exhausted le n => (exhaustedFrag le, n)

/-- Length of the base64 encoding of an `n`-byte input (4 output bytes per
3-byte group, padded).  Used to compare the raw-size gate of the source with
the "encoded size" reading of the spec. -/
def b64Len (n : Nat) : Nat := 4 * ((n + 2) / 3)

/-- Does this attempt outcome make the loop fall through to the next
candidate model (a timeout, or an API error the source classifies as
retryable)? -/
def advancesNext : ApiOutcome → Bool
  | .timeout => true
  | .apiError m => isRetryableErr m
  | .ok _ => false

/-- A concrete extraction record for a denial with a 2-day appeal deadline
(the spec's end-to-end scenario). -/
def denialExtraction : Extraction :=
  { document_type := some "DENIAL"
    denial_reason := some "not medically necessary"
    appeal_deadline_days := some 2
    urgency := some "P0_CRITICAL" }

/-- A concrete extraction record for a denial whose extracted
appeal-deadline offset is 0 days. -/
def zeroOffsetExtraction : Extraction :=
  { document_type := some "DENIAL"
    denial_reason := some "incomplete documentation"
    appeal_deadline_days := some 0 }

end IntakeAgent

/-! ## `RebuttalAgent._parse_talking_points` -/

namespace RebuttalAgent

/-- The fenced-code-block stripping shared by the agents' parsers:
`text.split("```json")[1].split("```")[0]` when a tagged fence occurs,
falling back to the untagged form, else the text unchanged. -/
def stripFence (text : String) : String :=
  if pyContains text "```json" then
    pyPart0 (pySplit (pyPart1 (pySplit text "```json")) "```")
  else if pyContains text "```" then
    pyPart0 (pySplit (pyPart1 (pySplit text "```")) "```")
  else text

/-- `RebuttalAgent._parse_talking_points(response)`: strip, strip an optional
fence, `json.loads` the rest; the decoded JSON value is returned as-is, and
any decode failure degrades to a one-element array holding the stripped
response (the bare `except` of the source). -/
def parse_talking_points (response : String) : JVal :=
  let text := pyStrip response
  let inner := stripFence text
  match json_loads (pyStrip inner) with
  | some v => v
  | none => .jarr [.jstr (pyStrip response)]

/-- Strings this development renders into JSON arrays: no backtick (a
backtick in the rendered text trips the parser's fence-stripping heuristic
— see the C5 counterexample) and no raw control character (well-formed JSON
must escape those; quotes and backslashes are fine, the renderer escapes
them). -/
def safeLit (s : String) : Prop :=
  ∀ c ∈ s.data, c ≠ '`' ∧ 32 ≤ c.toNat

instance (s : String) : Decidable (safeLit s) := by
  unfold safeLit; infer_instance

/-- Minimal JSON escaping of one character (quote and backslash). -/
def escChar (c : Char) : List Char :=
  if c = '"' then ['\\', '"']
  else if c = '\\' then ['\\', '\\']
  else [c]

/-- Minimal JSON escaping of a string, as `json.dumps` renders a string
without control characters or non-ASCII escaping. -/
def escString (s : String) : List Char :=
  s.data.flatMap escChar

/-- The middle of a rendered 3-element JSON string array (between the
brackets). -/
def render3mid (a b c : String) : List Char :=
  '"' :: escString a ++ '"' :: ',' :: '"' :: escString b ++ '"' :: ',' ::
    '"' :: escString c ++ ['"']

/-- The canonical JSON rendering of the 3-element string array `[a, b, c]`
(minimal escaping, no padding). -/
def render3 (a b c : String) : String :=
  ⟨'[' :: render3mid a b c ++ [']']⟩

/-- A response wrapped in the fenced code block the completion prompt
tolerates: triple-backtick with a `json` language tag. -/
def fenceWrap (s : String) : String :=
  "```json\n" ++ s ++ "\n```"

end RebuttalAgent

/-! ## Orchestrator: routing, initial state, scribe runner, progress channel -/

namespace SentinelOrchestrator

/-- `SentinelOrchestrator._route_after_coder`. -/
def route_after_coder (state : SentinelState) : String :=
  if truthyBytes state.pdf_bytes then "process_denial" else "end"

/-- `SentinelOrchestrator._route_after_intake`. -/
def route_after_intake (state : SentinelState) : String :=
  if state.denial_detected then "generate_rebuttal" else "end"

/-- The nodes of the graphs plus the END sink. -/
inductive GraphNode where
  | scribe : GraphNode
  | coder : GraphNode
  | intake : GraphNode
  | rebuttal : GraphNode
  | END : GraphNode
deriving DecidableEq

/-- The label-to-node mapping the full graph registers for the conditional
edge after `coder` (`add_conditional_edges` dict). -/
def coderRouteTable (label : String) : Option GraphNode :=
  if label = "process_denial" then some .intake
  else if label = "end" then some .END
  else none

/-- The label-to-node mapping registered for the conditional edge after
`intake` (both in the denial graph and in the full graph). -/
def intakeRouteTable (label : String) : Option GraphNode :=
  if label = "generate_rebuttal" then some .rebuttal
  else if label = "end" then some .END
  else none

/-- `SentinelOrchestrator._create_initial_state(**kwargs)`: each kwarg is an
`Option` (`none` models a key the entry point did not pass). -/
def create_initial_state (case_id patient_name : Option String)
    (audio_bytes : Option (List Nat)) (dictation_text : Option String)
    (pdf_bytes : Option (List Nat)) (workflow_type : Option String) :
    SentinelState :=
  { case_id := case_id.getD ""
    patient_name := patient_name.getD ""
    audio_bytes := audio_bytes
    dictation_text := dictation_text
    pdf_bytes := pdf_bytes
    workflow_type := workflow_type.getD "full"
    raw_transcript := ""
    soap_note := SoapNote.empty
    clinical_entities := []
    proposed_treatments := []
    chief_complaint := ""
    icd_codes := []
    policy_gaps := []
    preemptive_alerts := []
    medical_necessity_score := 0
    denial_risk := ""
    denial_detected := false
    denial_reason := ""
    peer_to_peer_deadline := ""
    denial_extraction := Extraction.empty
    rebuttal_letter := ""
    talking_points := []
    current_agent := ""
    agent_logs := []
    error := "" }

/-- The initial state built by the entry point `process_dictation`. -/
def process_dictation_initial (case_id patient_name : String)
    (audio_bytes : Option (List Nat)) (dictation_text : Option String) :
    SentinelState :=
  create_initial_state (some case_id) (some patient_name)
    audio_bytes dictation_text none (some "dictation")

/-- The initial state built by the entry point `process_denial`. -/
def process_denial_initial (case_id patient_name : String)
    (pdf_bytes : List Nat) : SentinelState :=
  create_initial_state (some case_id) (some patient_name)
    none none (some pdf_bytes) (some "denial")

/-- The initial state built by the entry point `process_full_case`. -/
def process_full_case_initial (case_id patient_name : String)
    (audio_bytes : Option (List Nat)) (dictation_text : Option String)
    (pdf_bytes : Option (List Nat)) : SentinelState :=
  create_initial_state (some case_id) (some patient_name)
    audio_bytes dictation_text pdf_bytes (some "full")

/-- The dict returned by `ScribeAgent.process_audio` / `process_text`, as
read back by `_run_scribe` via `result.get(...)`.  The no-input branch
builds a dict holding only an `error` key, which is the all-`none` record
with `error` set. -/
structure ScribeResult where
  raw_transcript : Option String := none
  soap_note : Option SoapNote := none
  clinical_entities : Option (List ClinicalEntity) := none
  proposed_treatments : Option (List String) := none
  chief_complaint : Option String := none
  error : Option String := none
deriving DecidableEq

/-- The scribe collaborator: each call either returns a result dict or
raises (`Except.error` carries `str(e)`). -/
structure ScribeOracle where
  process_audio : List Nat → Except String ScribeResult
  process_text : String → Except String ScribeResult

/-- The partial-state fragment `_run_scribe` returns to the engine
(`none` = key absent from the returned dict). -/
structure ScribeFragment where
  raw_transcript : Option String := none
  soap_note : Option SoapNote := none
  clinical_entities : Option (List ClinicalEntity) := none
  proposed_treatments : Option (List String) := none
  chief_complaint : Option String := none
  current_agent : Option String := none
  agent_logs : List LogEntry := []
  error : Option String := none
deriving DecidableEq

/-- `SentinelOrchestrator._run_scribe(state)`.  `now` models the
`datetime.now()` call of the success-path log entry.  The progress-channel
emissions are modelled separately (they do not touch the fragment).  Note
the source's no-input branch: it builds `{"error": "No audio or text
provided"}` but then falls into the success path, whose returned fragment
never reads the `error` key. -/
def run_scribe (oc : ScribeOracle) (now : Int) (state : SentinelState) :
    ScribeFragment :=
  let attempt : Except String ScribeResult :=
    if truthyBytes state.audio_bytes then
      oc.process_audio (state.audio_bytes.getD [])
    else if truthyStr state.dictation_text then
      oc.process_text (state.dictation_text.getD "")
    else
      .ok { error := some "No audio or text provided" }
  match attempt with
  | .ok result =>
    { raw_transcript := some (result.raw_transcript.getD "")
      soap_note := some (result.soap_note.getD SoapNote.empty)
      clinical_entities := some (result.clinical_entities.getD [])
      proposed_treatments := some (result.proposed_treatments.getD [])
      chief_complaint := some (result.chief_complaint.getD "")
      current_agent := some "scribe"
      agent_logs := [{ agent := "scribe", status := "complete"
                       message := "Dictation processed", timestamp := some now }]
      error := none }
  | .error e =>
    { error := some e
      agent_logs := [{ agent := "scribe", status := "error", message := e }] }

/-! ### Progress channel (`active_streams`, `_emit_update`, `subscribe`,
`unsubscribe`)

`self.active_streams : dict[str, asyncio.Queue]` is modelled as a function
from case id to the optional FIFO contents of that case's queue;
`Queue.put` appends, `Queue.get` pops the front. -/

/-- The update dict `_emit_update` builds and publishes. -/
structure ProgressEvent where
  agent : String
  status : String
  message : String
  data : Option String := none
  timestamp : Int := 0
deriving DecidableEq

/-- The subscriber registry: case id → queue contents (absent = no queue). -/
def Registry : Type := String → Option (List ProgressEvent)

/-- `_emit_update`: enqueue to the case's queue when one is registered,
silently drop the event otherwise. -/
def emit_update (reg : Registry) (case_id : String) (ev : ProgressEvent) :
    Registry :=
  match reg case_id with
  | some q => fun c => if c = case_id then some (q ++ [ev]) else reg c
  | none => reg

/-- Publish a list of events in order. -/
def emitAll (reg : Registry) (case_id : String) (evs : List ProgressEvent) :
    Registry :=
  evs.foldl (fun r ev => emit_update r case_id ev) reg

/-- `subscribe(case_id)`: create the queue only if absent, and return the
case's (shared) queue. -/
def subscribe (reg : Registry) (case_id : String) :
    Registry × List ProgressEvent :=
  match reg case_id with
  | some q => (reg, q)
  | none => ((fun c => if c = case_id then some [] else reg c), [])

/-- `unsubscribe(case_id)`: discard the case's queue if present. -/
def unsubscribe (reg : Registry) (case_id : String) : Registry :=
  match reg case_id with
  | some _ => fun c => if c = case_id then none else reg c
  | none => reg

/-- `Queue.get` on the case's queue: pop the front event (an empty or absent
queue yields nothing — the asyncio call would suspend). -/
def queue_get (reg : Registry) (case_id : String) :
    Registry × Option ProgressEvent :=
  match reg case_id with
  | some (e :: rest) => ((fun c => if c = case_id then some rest else reg c), some e)
  | some [] => (reg, none)
  | none => (reg, none)

/-- Worker for `drainFrom` (fuel = queue length). -/
def drainGo : Nat → Registry → String → List ProgressEvent
  | 0, _, _ => []
  | fuel + 1, reg, case_id =>
    match queue_get reg case_id with
    | (reg', some e) => e :: drainGo fuel reg' case_id
    | (_, none) => []

/-- The sequence of events a subscriber observes by repeatedly calling
`Queue.get` until the queue is empty. -/
def drainFrom (reg : Registry) (case_id : String) : List ProgressEvent :=
  drainGo ((reg case_id).getD []).length reg case_id

end SentinelOrchestrator

/-- The outputs-at-defaults property of C9: every output field of the state
holds its defined empty default (empty string / list / record, score 0.0,
denial-detected false). -/
def outputsAtDefaults (s : SentinelState) : Prop :=
  s.raw_transcript = "" ∧ s.soap_note = SoapNote.empty ∧
  s.clinical_entities = [] ∧ s.proposed_treatments = [] ∧
  s.chief_complaint = "" ∧ s.icd_codes = [] ∧ s.policy_gaps = [] ∧
  s.preemptive_alerts = [] ∧ s.medical_necessity_score = 0 ∧
  s.denial_risk = "" ∧ s.denial_detected = false ∧ s.denial_reason = "" ∧
  s.peer_to_peer_deadline = "" ∧ s.denial_extraction = Extraction.empty ∧
  s.rebuttal_letter = "" ∧ s.talking_points = [] ∧ s.current_agent = "" ∧
  s.agent_logs = [] ∧ s.error = ""

end Sentinel

-- sanity checks (temporary)
example : Sentinel.pyStrip "  hi \n" = "hi" := by decide
example : Sentinel.pyLower "NSTemI" = "nstemi" := by decide
example : Sentinel.pySplit "a```json b```c" "```json" = ["a", " b```c"] := by decide
example : Sentinel.pyContains "xnstemiy" "nstemi" = true := by decide
example : Sentinel.pyContains "xnstemy" "nstemi" = false := by decide
example : Sentinel.json_loads "[\"a\", \"b\"]" = some (.jarr [.jstr "a", .jstr "b"]) := rfl
example : Sentinel.json_loads " null " = some .jnull := rfl
example : Sentinel.json_loads "[1, -20, true]" = some (.jarr [.jnum 1, .jnum (-20), .jbool true]) := rfl
example : Sentinel.json_loads "[\"a\" " = none := rfl
example : Sentinel.json_loads "hi" = none := rfl
example : Sentinel.json_loads "\x7b\"k\": [\"v\"]\x7d" = some (.jobj [("k", .jarr [.jstr "v"])]) := rfl
example : Sentinel.json_loads "\x7b\x7d" = some (.jobj []) := rfl
example : Sentinel.json_loads "\"a\\nb\"" = some (.jstr "a\nb") := rfl
example : Sentinel.json_loads "\"caf\\u00e9\"" = some (.jstr "café") := rfl
example : Sentinel.json_loads "\"\\ud834\\udd1e\"" = some (.jstr "𝄞") := rfl
example : Sentinel.json_loads "[1.5e3, -0.2]" =
    some (.jarr [.jfloat "1.5e3", .jfloat "-0.2"]) := rfl
example : Sentinel.json_loads "Infinity" = some (.jfloat "Infinity") := rfl
example : Sentinel.json_loads "-Infinity" = some (.jfloat "-Infinity") := rfl
example : Sentinel.json_loads "NaN" = some (.jfloat "NaN") := rfl
example : Sentinel.json_loads "01" = none := rfl
example : Sentinel.json_loads "1." = none := rfl
example : Sentinel.json_loads "\"a\tb\"" = none := rfl
example : Sentinel.CoderAgent.extract_diagnoses { assessment := some "NSTEMI" } [] =
    ["NSTEMI", "myocardial infarction", "acute coronary syndrome", "STEMI"] := by decide
example : Sentinel.CoderAgent.extract_diagnoses { assessment := some "Acute NSTEMI today" }
      [{ etype := some "symptom", name := some "chest pain" }] =
    ["Acute NSTEMI today", "NSTEMI", "myocardial infarction", "acute coronary syndrome",
     "STEMI", "chest pain", "cardiac"] := by decide

namespace Sentinel

open SentinelOrchestrator

/-! ## Progress-channel lemmas -/

theorem unsubscribe_apply (reg : Registry) (cid : String) :
    unsubscribe reg cid cid = none := by
  unfold unsubscribe
  cases h : reg cid <;> simp [h]

theorem emit_update_absent (reg : Registry) (cid : String) (ev : ProgressEvent)
    (h : reg cid = none) : emit_update reg cid ev = reg := by
  unfold emit_update
  simp [h]

theorem emitAll_absent (reg : Registry) (cid : String) (evs : List ProgressEvent)
    (h : reg cid = none) : emitAll reg cid evs = reg := by
  induction evs with
  | nil => rfl
  | cons e es ih =>
    show emitAll (emit_update reg cid e) cid es = reg
    rw [emit_update_absent reg cid e h, ih]

theorem emitAll_present (reg : Registry) (cid : String) (q : List ProgressEvent)
    (evs : List ProgressEvent) (h : reg cid = some q) :
    emitAll reg cid evs cid = some (q ++ evs) := by
  induction evs generalizing reg q with
  | nil => simp [emitAll, h]
  | cons e es ih =>
    show emitAll (emit_update reg cid e) cid es cid = _
    have hstep : emit_update reg cid e cid = some (q ++ [e]) := by
      unfold emit_update; simp [h]
    rw [ih _ _ hstep]
    simp

theorem drainGo_spec (cid : String) (q : List ProgressEvent) :
    ∀ reg : Registry, reg cid = some q → drainGo q.length reg cid = q := by
  induction q with
  | nil => intro reg _; rfl
  | cons e rest ih =>
    intro reg h
    show drainGo (rest.length + 1) reg cid = e :: rest
    unfold drainGo queue_get
    simp only [h]
    have : (fun c => if c = cid then some rest else reg c) cid = some rest := by simp
    rw [ih _ this]

theorem drainFrom_spec (reg : Registry) (cid : String) (q : List ProgressEvent)
    (h : reg cid = some q) : drainFrom reg cid = q := by
  unfold drainFrom
  rw [h]
  exact drainGo_spec cid q reg h

/-- C8: for every case identifier, an event published while no subscriber
queue is registered for that case is silently dropped (the registry is
unchanged) and never delivered to a subscriber that registers later (the
later subscriber starts from an empty queue — no backfill); every event
published after a subscriber registers is enqueued to that subscriber's
queue, and draining the queue observes the events in exactly the order
they were published. -/
theorem progress_channel_pubsub (reg : Registry) (cid : String)
    (pre evs : List ProgressEvent) :
    emitAll (unsubscribe reg cid) cid pre = unsubscribe reg cid ∧
    (subscribe (emitAll (unsubscribe reg cid) cid pre) cid).2 = [] ∧
    emitAll (subscribe (unsubscribe reg cid) cid).1 cid evs cid = some evs ∧
    drainFrom (emitAll (subscribe (unsubscribe reg cid) cid).1 cid evs) cid = evs := by
  have habs : unsubscribe reg cid cid = none := unsubscribe_apply reg cid
  have hdrop : emitAll (unsubscribe reg cid) cid pre = unsubscribe reg cid :=
    emitAll_absent _ _ _ habs
  have hsub1 : (subscribe (unsubscribe reg cid) cid).1 cid = some [] := by
    unfold subscribe; simp [habs]
  have hq : emitAll (subscribe (unsubscribe reg cid) cid).1 cid evs cid = some evs := by
    have := emitAll_present (subscribe (unsubscribe reg cid) cid).1 cid [] evs hsub1
    simpa using this
  refine ⟨hdrop, ?_, hq, drainFrom_spec _ _ _ hq⟩
  rw [hdrop]
  unfold subscribe
  simp [habs]

/-- C10: `subscribe` is idempotent per case identifier — with a queue
already registered (here: just created and then fed the pending events
`ev :: evs`), a second `subscribe` returns the registry unchanged together
with that very queue, pending events intact; and because the queue is
shared, a `Queue.get` consumes the head event, which is then gone for
every subscriber (a later `subscribe` sees only the remaining events). -/
theorem subscribe_idempotent_shared_queue (reg : Registry) (cid : String)
    (ev : ProgressEvent) (evs : List ProgressEvent) :
    subscribe (emitAll (subscribe (unsubscribe reg cid) cid).1 cid (ev :: evs)) cid =
      (emitAll (subscribe (unsubscribe reg cid) cid).1 cid (ev :: evs), ev :: evs) ∧
    (queue_get (emitAll (subscribe (unsubscribe reg cid) cid).1 cid (ev :: evs)) cid).2 =
      some ev ∧
    (queue_get (emitAll (subscribe (unsubscribe reg cid) cid).1 cid (ev :: evs)) cid).1 cid =
      some evs ∧
    subscribe (queue_get (emitAll (subscribe (unsubscribe reg cid) cid).1 cid (ev :: evs)) cid).1 cid =
      ((queue_get (emitAll (subscribe (unsubscribe reg cid) cid).1 cid (ev :: evs)) cid).1, evs) := by
  have habs : unsubscribe reg cid cid = none := unsubscribe_apply reg cid
  have hsub1 : (subscribe (unsubscribe reg cid) cid).1 cid = some [] := by
    unfold subscribe; simp [habs]
  have hq : emitAll (subscribe (unsubscribe reg cid) cid).1 cid (ev :: evs) cid =
      some (ev :: evs) := by
    have := emitAll_present (subscribe (unsubscribe reg cid) cid).1 cid [] (ev :: evs) hsub1
    simpa using this
  revert hq
  generalize emitAll (subscribe (unsubscribe reg cid) cid).1 cid (ev :: evs) = R
  intro hq
  have hpop1 : (queue_get R cid).1 cid = some evs := by
    unfold queue_get; simp [hq]
  refine ⟨?_, ?_, hpop1, ?_⟩
  · unfold subscribe; simp [hq]
  · unfold queue_get; simp [hq]
  · revert hpop1
    generalize (queue_get R cid).1 = R2
    intro hpop1
    unfold subscribe
    simp [hpop1]

/-- C1: the conditional routers are pure functions of the current state
implementing the routing table — for every state, the post-audit router
selects the intake (classify-document) node iff pdf bytes are present
(truthy) in state and END otherwise, and the post-classification router
selects the rebuttal node iff the denial-detected flag is true and END
otherwise. -/
theorem routers_implement_routing_table (s : SentinelState) :
    (coderRouteTable (route_after_coder s) = some GraphNode.intake ↔
      truthyBytes s.pdf_bytes = true) ∧
    (coderRouteTable (route_after_coder s) = some GraphNode.END ↔
      truthyBytes s.pdf_bytes = false) ∧
    (intakeRouteTable (route_after_intake s) = some GraphNode.rebuttal ↔
      s.denial_detected = true) ∧
    (intakeRouteTable (route_after_intake s) = some GraphNode.END ↔
      s.denial_detected = false) := by
  cases hp : truthyBytes s.pdf_bytes <;> cases hd : s.denial_detected <;>
    simp [route_after_coder, route_after_intake, coderRouteTable,
      intakeRouteTable, hp, hd]

/-- C9: for every invocation of a top-level entry point — any inputs, any
case identifier — the freshly constructed initial workflow state has every
output field at its defined empty default; no field is undefined (the state
is a total record by construction, independent of any prior invocation). -/
theorem initial_state_output_defaults (case_id patient_name : String)
    (audio_bytes : Option (List Nat)) (dictation_text : Option String)
    (pdf_bytes : List Nat) (opt_pdf_bytes : Option (List Nat)) :
    outputsAtDefaults
      (process_dictation_initial case_id patient_name audio_bytes dictation_text) ∧
    outputsAtDefaults (process_denial_initial case_id patient_name pdf_bytes) ∧
    outputsAtDefaults
      (process_full_case_initial case_id patient_name audio_bytes dictation_text
        opt_pdf_bytes) := by
  refine ⟨?_, ?_, ?_⟩ <;>
    exact ⟨rfl, rfl, rfl, rfl, rfl, rfl, rfl, rfl, rfl, rfl, rfl, rfl, rfl, rfl,
      rfl, rfl, rfl, rfl, rfl⟩

/-- C3 (divergence witness): when `_run_scribe` is invoked with neither
audio bytes nor dictation text (absent or empty), the source builds the
internal dict `error = No audio or text provided` but then falls into the
success path and returns the all-defaults fragment: no `error` key, and the
single log entry has status `complete` — the no-input failure is not
surfaced in the returned fragment (it also does not raise). -/
theorem run_scribe_no_input_not_surfaced (oc : ScribeOracle) (now : Int)
    (st : SentinelState) :
    run_scribe oc now { st with audio_bytes := none, dictation_text := none } =
      { raw_transcript := some "", soap_note := some SoapNote.empty,
        clinical_entities := some [], proposed_treatments := some [],
        chief_complaint := some "", current_agent := some "scribe",
        agent_logs := [{ agent := "scribe", status := "complete",
                         message := "Dictation processed", timestamp := some now }],
        error := none } ∧
    run_scribe oc now { st with audio_bytes := some [], dictation_text := some "" } =
      { raw_transcript := some "", soap_note := some SoapNote.empty,
        clinical_entities := some [], proposed_treatments := some [],
        chief_complaint := some "", current_agent := some "scribe",
        agent_logs := [{ agent := "scribe", status := "complete",
                         message := "Dictation processed", timestamp := some now }],
        error := none } := by
  constructor <;> rfl

open IntakeAgent

/-! ## Model-fallback loop lemmas -/

theorem modelLoop_ok (env : Nat → ApiOutcome) (m : String) (rest : List String)
    (i : Nat) (le : Option String) (e : Extraction) (h : env i = .ok e) :
    modelLoop env (m :: rest) i le = .success e (i + 1) := by
  unfold modelLoop
  rw [h]

theorem modelLoop_advance (env : Nat → ApiOutcome) (m : String) (rest : List String)
    (i : Nat) (le : Option String) (h : advancesNext (env i) = true) :
    modelLoop env (m :: rest) i le =
      modelLoop env rest (i + 1) (attemptErrMsg (env i) m) := by
  cases ho : env i with
  | ok e => rw [ho] at h; simp [advancesNext] at h
  | timeout => simp only [modelLoop, ho]
  | apiError msg =>
    rw [ho] at h
    simp only [advancesNext] at h
    simp only [modelLoop, ho, attemptErrMsg]
    simp [h]

theorem modelLoop_fatal (env : Nat → ApiOutcome) (m : String) (rest : List String)
    (i : Nat) (le : Option String) (msg : String) (h : env i = .apiError msg)
    (hr : isRetryableErr msg = false) :
    modelLoop env (m :: rest) i le = .fatal msg (i + 1) := by
  unfold modelLoop
  rw [h]
  simp [hr]

theorem modelLoop_success_at (env : Nat → ApiOutcome) (k : Nat) (e : Extraction)
    (hk : k < 4) (hadv : ∀ i, i < k → advancesNext (env i) = true)
    (hok : env k = .ok e) :
    modelLoop env models_to_try 0 none = .success e (k + 1) := by
  simp only [models_to_try]
  interval_cases k
  · exact modelLoop_ok env _ _ 0 none e hok
  · rw [modelLoop_advance env _ _ 0 none (hadv 0 (by omega))]
    exact modelLoop_ok env _ _ 1 _ e hok
  · rw [modelLoop_advance env _ _ 0 none (hadv 0 (by omega)),
      modelLoop_advance env _ _ 1 _ (hadv 1 (by omega))]
    exact modelLoop_ok env _ _ 2 _ e hok
  · rw [modelLoop_advance env _ _ 0 none (hadv 0 (by omega)),
      modelLoop_advance env _ _ 1 _ (hadv 1 (by omega)),
      modelLoop_advance env _ _ 2 _ (hadv 2 (by omega))]
    exact modelLoop_ok env _ _ 3 _ e hok

theorem modelLoop_fatal_at (env : Nat → ApiOutcome) (k : Nat) (msg : String)
    (hk : k < 4) (hadv : ∀ i, i < k → advancesNext (env i) = true)
    (herr : env k = .apiError msg) (hr : isRetryableErr msg = false) :
    modelLoop env models_to_try 0 none = .fatal msg (k + 1) := by
  simp only [models_to_try]
  interval_cases k
  · exact modelLoop_fatal env _ _ 0 none msg herr hr
  · rw [modelLoop_advance env _ _ 0 none (hadv 0 (by omega))]
    exact modelLoop_fatal env _ _ 1 _ msg herr hr
  · rw [modelLoop_advance env _ _ 0 none (hadv 0 (by omega)),
      modelLoop_advance env _ _ 1 _ (hadv 1 (by omega))]
    exact modelLoop_fatal env _ _ 2 _ msg herr hr
  · rw [modelLoop_advance env _ _ 0 none (hadv 0 (by omega)),
      modelLoop_advance env _ _ 1 _ (hadv 1 (by omega)),
      modelLoop_advance env _ _ 2 _ (hadv 2 (by omega))]
    exact modelLoop_fatal env _ _ 3 _ msg herr hr

theorem modelLoop_exhausted_all (env : Nat → ApiOutcome)
    (hadv : ∀ i, i < 4 → advancesNext (env i) = true) :
    modelLoop env models_to_try 0 none =
      .exhausted (attemptErrMsg (env 3) "claude-3-5-haiku-20241022") 4 := by
  simp only [models_to_try]
  rw [modelLoop_advance env _ _ 0 none (hadv 0 (by omega)),
    modelLoop_advance env _ _ 1 _ (hadv 1 (by omega)),
    modelLoop_advance env _ _ 2 _ (hadv 2 (by omega)),
    modelLoop_advance env _ _ 3 _ (hadv 3 (by omega))]
  rfl

theorem process_gates_open (env : Nat → ApiOutcome) (now : Int) (pdf : List Nat)
    (hne : pdf.length ≠ 0) (hle : pdf.length ≤ 10 * 1024 * 1024) :
    IntakeAgent.process env now (some pdf) =
      (match modelLoop env models_to_try 0 none with
       | .success e n => (successFrag now e, n)
       | .fatal msg n => (fatalFrag msg, n)
       | .exhausted le n => (exhaustedFrag le, n)) := by
  simp only [IntakeAgent.process]
  rw [if_neg hne, if_neg (by omega : ¬ 10 * 1024 * 1024 < pdf.length)]

/-- C2 counterexample: a 9 MiB payload's base64-encoded size (12582912
bytes) exceeds the 10 MB cap, yet the stage does not reject it — it
attempts an external call (one here) and returns no error.  The source
gates on the raw byte count, not the encoded size. -/
theorem intake_size_gate_cex :
    IntakeAgent.b64Len (List.replicate 9437184 (0 : Nat)).length = 12582912 ∧
    10 * 1024 * 1024 < IntakeAgent.b64Len (List.replicate 9437184 (0 : Nat)).length ∧
    (IntakeAgent.process (fun _ => .ok denialExtraction) 0
      (some (List.replicate 9437184 (0 : Nat)))).2 = 1 ∧
    (IntakeAgent.process (fun _ => .ok denialExtraction) 0
      (some (List.replicate 9437184 (0 : Nat)))).1.error = none := by
  have hlen : (List.replicate 9437184 (0 : Nat)).length = 9437184 :=
    List.length_replicate 9437184 0
  have hproc : IntakeAgent.process (fun _ => .ok denialExtraction) 0
      (some (List.replicate 9437184 (0 : Nat))) = (successFrag 0 denialExtraction, 1) := by
    rw [process_gates_open _ _ _ (by rw [hlen]; omega) (by rw [hlen]; omega),
      modelLoop_success_at _ 0 denialExtraction (by omega)
        (fun i h => absurd h (Nat.not_lt_zero i)) rfl]
  refine ⟨?_, ?_, ?_, ?_⟩
  · rw [hlen]
    decide
  · rw [hlen]
    decide
  · rw [hproc]
  · rw [hproc]
    rfl

/-- C2 (amended): for every payload whose raw (pre-encoding) size exceeds
the 10 MiB cap, `IntakeAgent.process` returns the defined oversize failure
fragment (is_denial false, extraction none, error set) with zero external
calls attempted; likewise the absent (`None`) and empty payloads yield the
defined no-PDF failure fragment with zero external calls.  The function is
total: it never raises. -/
theorem intake_size_gate (env : Nat → ApiOutcome) (now : Int) (pdf : List Nat) :
    IntakeAgent.process env now none = (noPdfFrag, 0) ∧
    IntakeAgent.process env now (some []) = (noPdfFrag, 0) ∧
    (10 * 1024 * 1024 < pdf.length →
      IntakeAgent.process env now (some pdf) = (tooLargeFrag, 0)) ∧
    noPdfFrag.error ≠ none ∧ tooLargeFrag.error ≠ none ∧
    noPdfFrag.is_denial = false ∧ tooLargeFrag.is_denial = false ∧
    noPdfFrag.extraction = none ∧ tooLargeFrag.extraction = none := by
  refine ⟨rfl, rfl, ?_, by decide, by decide, rfl, rfl, rfl, rfl⟩
  intro h
  simp only [IntakeAgent.process]
  rw [if_neg (by omega : ¬ pdf.length = 0), if_pos h]

theorem intake_size_gate_witness :
    IntakeAgent.process (fun _ => ApiOutcome.timeout) 0
      (some (List.replicate (10 * 1024 * 1024 + 1) 0)) = (tooLargeFrag, 0) :=
  (intake_size_gate (fun _ => ApiOutcome.timeout) 0
      (List.replicate (10 * 1024 * 1024 + 1) 0)).2.2.1
    (by rw [List.length_replicate]; omega)

/-- C6: in the document-classification model-fallback loop, a retryable
("not found / unsupported model"-classified) error or a per-attempt timeout
on one candidate causes the next candidate in the ordered list to be tried;
any other API error is re-raised, caught by the stage's outer handler, and
causes no further candidates to be tried (the stage returns the defined
error fragment); and if every candidate is exhausted without a response the
stage returns the defined failure fragment rather than raising. -/
theorem intake_model_fallback (env : Nat → ApiOutcome) (now : Int) (pdf : List Nat)
    (hne : pdf.length ≠ 0) (hle : pdf.length ≤ 10 * 1024 * 1024) :
    (∀ k, k < 4 → (∀ i, i < k → advancesNext (env i) = true) →
      (∀ e, env k = .ok e →
        IntakeAgent.process env now (some pdf) = (successFrag now e, k + 1)) ∧
      (∀ msg, env k = .apiError msg → isRetryableErr msg = false →
        IntakeAgent.process env now (some pdf) = (fatalFrag msg, k + 1))) ∧
    ((∀ i, i < 4 → advancesNext (env i) = true) →
      IntakeAgent.process env now (some pdf) =
        (exhaustedFrag (attemptErrMsg (env 3) "claude-3-5-haiku-20241022"), 4)) := by
  rw [process_gates_open env now pdf hne hle]
  constructor
  · intro k hk hadv
    constructor
    · intro e hok
      rw [modelLoop_success_at env k e hk hadv hok]
    · intro msg herr hr
      rw [modelLoop_fatal_at env k msg hk hadv herr hr]
  · intro hadv
    rw [modelLoop_exhausted_all env hadv]

theorem intake_model_fallback_witness :
    IntakeAgent.process
        (fun i => if i = 0 then ApiOutcome.timeout else .ok denialExtraction)
        0 (some [37]) = (successFrag 0 denialExtraction, 2) ∧
    IntakeAgent.process
        (fun i => if i = 0 then ApiOutcome.apiError "model not_found"
                  else .apiError "quota exceeded")
        0 (some [37]) = (fatalFrag "quota exceeded", 2) ∧
    IntakeAgent.process (fun _ => ApiOutcome.timeout) 0 (some [37]) =
      (exhaustedFrag (some "Timeout waiting for claude-3-5-haiku-20241022"), 4) := by
  refine ⟨?_, ?_, ?_⟩
  · exact ((intake_model_fallback _ 0 [37] (by decide) (by decide)).1 1 (by omega)
      (by decide)).1 denialExtraction rfl
  · exact ((intake_model_fallback _ 0 [37] (by decide) (by decide)).1 1 (by omega)
      (by decide)).2 "quota exceeded" rfl (by decide)
  · exact (intake_model_fallback _ 0 [37] (by decide) (by decide)).2
      (fun i _ => rfl)

/-- C7 counterexample: a successful classification whose extracted
appeal-deadline offset is 0 days ("an offset was extracted") yields a
fragment with no deadline at all, not `now + 0 days`: the source guards the
deadline computation with Python truthiness, so an extracted 0 is treated
like an absent offset. -/
theorem intake_deadline_offset_cex :
    (IntakeAgent.process (fun _ => .ok zeroOffsetExtraction) 7 (some [1])).1.extraction =
      some zeroOffsetExtraction ∧
    zeroOffsetExtraction.appeal_deadline_days = some 0 ∧
    (IntakeAgent.process (fun _ => .ok zeroOffsetExtraction) 7 (some [1])).1.peer_to_peer_deadline =
      none ∧
    (IntakeAgent.process (fun _ => .ok zeroOffsetExtraction) 7 (some [1])).1.peer_to_peer_deadline ≠
      some (7 + 86400 * 0) :=
  ⟨rfl, rfl, rfl, by decide⟩

/-- C7 (amended): for every successful document classification from which a
truthy (non-zero, non-null) appeal-deadline offset-in-days `d` was
extracted, the returned fragment carries the absolute deadline
`now + 86400 * d` seconds — the current time at classification completion
plus `d` days; in particular an extracted offset of 2 days yields
completion time + 2 days (see the witness). -/
theorem intake_deadline_offset (env : Nat → ApiOutcome) (now : Int) (pdf : List Nat)
    (k : Nat) (e : Extraction) (d : Int)
    (hne : pdf.length ≠ 0) (hle : pdf.length ≤ 10 * 1024 * 1024)
    (hk : k < 4) (hadv : ∀ i, i < k → advancesNext (env i) = true)
    (hok : env k = .ok e) (hd : e.appeal_deadline_days = some d) (hdz : d ≠ 0) :
    (IntakeAgent.process env now (some pdf)).1.peer_to_peer_deadline =
      some (now + 86400 * d) ∧
    (IntakeAgent.process env now (some pdf)).1.extraction = some e := by
  have hp : IntakeAgent.process env now (some pdf) = (successFrag now e, k + 1) := by
    rw [process_gates_open env now pdf hne hle, modelLoop_success_at env k e hk hadv hok]
  rw [hp]
  refine ⟨?_, rfl⟩
  simp [successFrag, hd, hdz]

theorem intake_deadline_offset_witness :
    (IntakeAgent.process (fun _ => ApiOutcome.ok denialExtraction) 0 (some [37])).1.peer_to_peer_deadline =
      some (0 + 86400 * 2) ∧
    (IntakeAgent.process (fun _ => ApiOutcome.ok denialExtraction) 0 (some [37])).1.extraction =
      some denialExtraction :=
  intake_deadline_offset (fun _ => ApiOutcome.ok denialExtraction) 0 [37] 0
    denialExtraction 2 (by decide) (by decide) (by omega)
    (fun i h => absurd h (Nat.not_lt_zero i)) rfl rfl (by decide)

/-! ## Keyword-derivation (dedup) lemmas -/

open CoderAgent

theorem dedupGo_cons (seen : List String) (d : String) (ds : List String) :
    dedupGo seen (d :: ds) =
      if pyLower d ∉ seen ∧ pyStrip d ≠ "" then d :: dedupGo (pyLower d :: seen) ds
      else dedupGo seen ds := rfl

theorem dedupGo_append (seen : List String) (xs ys : List String) :
    ∃ seen2, dedupGo seen (xs ++ ys) = dedupGo seen xs ++ dedupGo seen2 ys := by
  induction xs generalizing seen with
  | nil => exact ⟨seen, rfl⟩
  | cons d ds ih =>
    rw [List.cons_append, dedupGo_cons, dedupGo_cons]
    by_cases hc : pyLower d ∉ seen ∧ pyStrip d ≠ ""
    · obtain ⟨seen2, hs⟩ := ih (pyLower d :: seen)
      exact ⟨seen2, by rw [if_pos hc, if_pos hc, hs, List.cons_append]⟩
    · obtain ⟨seen2, hs⟩ := ih seen
      exact ⟨seen2, by rw [if_neg hc, if_neg hc, hs]⟩

theorem dedupGo_length_le (seen : List String) (xs : List String) :
    (dedupGo seen xs).length ≤ xs.length := by
  induction xs generalizing seen with
  | nil => simp [dedupGo]
  | cons d ds ih =>
    rw [dedupGo_cons]
    by_cases hc : pyLower d ∉ seen ∧ pyStrip d ≠ ""
    · rw [if_pos hc, List.length_cons, List.length_cons]
      exact Nat.succ_le_succ (ih _)
    · rw [if_neg hc, List.length_cons]
      exact Nat.le_succ_of_le (ih _)

theorem mem_lower_dedupGo (x : String) (xs : List String) (seen : List String)
    (hx : x ∈ xs) (hs : pyStrip x ≠ "") :
    (∃ y ∈ dedupGo seen xs, pyLower y = pyLower x) ∨ pyLower x ∈ seen := by
  induction xs generalizing seen with
  | nil => cases hx
  | cons d ds ih =>
    rw [dedupGo_cons]
    by_cases hc : pyLower d ∉ seen ∧ pyStrip d ≠ ""
    · rw [if_pos hc]
      rcases List.mem_cons.mp hx with hxd | hxds
      · subst hxd
        exact .inl ⟨x, List.mem_cons_self x _, rfl⟩
      · rcases ih (pyLower d :: seen) hxds with ⟨y, hy, hly⟩ | hm
        · exact .inl ⟨y, List.mem_cons_of_mem _ hy, hly⟩
        · rcases List.mem_cons.mp hm with he | hseen
          · exact .inl ⟨d, List.mem_cons_self d _, he.symm⟩
          · exact .inr hseen
    · rw [if_neg hc]
      rcases List.mem_cons.mp hx with hxd | hxds
      · subst hxd
        rcases Decidable.not_and_iff_or_not.mp hc with hin | hstrip
        · exact .inr (Decidable.not_not.mp hin)
        · exact absurd hs (by simpa using hstrip)
      · exact ih seen hxds

theorem dedupGo_lower_distinct (seen : List String) (xs : List String) :
    (∀ y ∈ dedupGo seen xs, pyLower y ∉ seen) ∧
    List.Pairwise (fun u v => pyLower u ≠ pyLower v) (dedupGo seen xs) := by
  induction xs generalizing seen with
  | nil => simp [dedupGo]
  | cons d ds ih =>
    rw [dedupGo_cons]
    by_cases hc : pyLower d ∉ seen ∧ pyStrip d ≠ ""
    · rw [if_pos hc]
      obtain ⟨hnotin, hpw⟩ := ih (pyLower d :: seen)
      constructor
      · intro y hy
        rcases List.mem_cons.mp hy with hyd | hyr
        · subst hyd; exact hc.1
        · intro hsy
          exact hnotin y hyr (List.mem_cons_of_mem _ hsy)
      · refine List.Pairwise.cons ?_ hpw
        intro y hy
        have hns := hnotin y hy
        intro he
        exact hns (by rw [← he]; exact List.mem_cons_self _ _)
    · rw [if_neg hc]
      exact ih seen

theorem baseFromAssessment_nstemi (a : String) (ha : a ≠ "")
    (h : pyContains (pyLower a) "nstemi" = true) :
    baseFromAssessment (some a) =
      [a, "NSTEMI", "myocardial infarction", "acute coronary syndrome"] ++
      ((if pyContains (pyLower a) "stemi" || pyContains (pyLower a) "st elevation" then
          ["STEMI", "myocardial infarction"]
        else []) ++
       (if pyContains (pyLower a) "myocardial" || pyContains (pyLower a) "infarction" then
          ["cardiac", "coronary"]
        else [])) := by
  simp only [baseFromAssessment]
  rw [if_pos ha, h]
  simp

/-- C4: for every SOAP note whose assessment text contains "NSTEMI" in any
letter case and every entity list, the derived keyword list contains (case-
insensitively) "NSTEMI", "myocardial infarction" and "acute coronary
syndrome", contains no two entries equal up to letter case, and has length
at most 8. -/
theorem coder_keywords_nstemi (a : String) (soap : SoapNote)
    (entities : List ClinicalEntity)
    (h : pyContains (pyLower a) "nstemi" = true) :
    (∃ x ∈ extract_diagnoses { soap with assessment := some a } entities,
        pyLower x = "nstemi") ∧
    (∃ x ∈ extract_diagnoses { soap with assessment := some a } entities,
        pyLower x = "myocardial infarction") ∧
    (∃ x ∈ extract_diagnoses { soap with assessment := some a } entities,
        pyLower x = "acute coronary syndrome") ∧
    List.Pairwise (fun u v => pyLower u ≠ pyLower v)
      (extract_diagnoses { soap with assessment := some a } entities) ∧
    (extract_diagnoses { soap with assessment := some a } entities).length ≤ 8 := by
  have ha : a ≠ "" := by
    intro he
    rw [he] at h
    exact absurd h (by decide)
  obtain ⟨rest, hED⟩ :
      ∃ rest, extract_diagnoses { soap with assessment := some a } entities =
        (dedupGo []
          ([a, "NSTEMI", "myocardial infarction", "acute coronary syndrome"] ++ rest)).take 8 := by
    refine ⟨((if pyContains (pyLower a) "stemi" || pyContains (pyLower a) "st elevation" then
        ["STEMI", "myocardial infarction"]
      else []) ++
       (if pyContains (pyLower a) "myocardial" || pyContains (pyLower a) "infarction" then
        ["cardiac", "coronary"]
      else [])) ++ entities.flatMap entityTerms, ?_⟩
    show (dedupGo [] (baseFromAssessment (some a) ++ entities.flatMap entityTerms)).take 8 = _
    rw [baseFromAssessment_nstemi a ha h, List.append_assoc]
  rw [hED]
  obtain ⟨seen2, hsplit⟩ :=
    dedupGo_append [] [a, "NSTEMI", "myocardial infarction", "acute coronary syndrome"] rest
  rw [hsplit]
  have hALen : (dedupGo []
      [a, "NSTEMI", "myocardial infarction", "acute coronary syndrome"]).length ≤ 8 := by
    have := dedupGo_length_le []
      [a, "NSTEMI", "myocardial infarction", "acute coronary syndrome"]
    simp only [List.length_cons, List.length_nil] at this
    omega
  have htake :
      (dedupGo [] [a, "NSTEMI", "myocardial infarction", "acute coronary syndrome"] ++
        dedupGo seen2 rest).take 8 =
      dedupGo [] [a, "NSTEMI", "myocardial infarction", "acute coronary syndrome"] ++
        (dedupGo seen2 rest).take
          (8 - (dedupGo []
            [a, "NSTEMI", "myocardial infarction", "acute coronary syndrome"]).length) := by
    rw [List.take_append_eq_append_take, List.take_of_length_le hALen]
  have hmem : ∀ t : String, t ∈
      ([a, "NSTEMI", "myocardial infarction", "acute coronary syndrome"] : List String) →
      pyStrip t ≠ "" →
      ∃ x ∈ (dedupGo [] [a, "NSTEMI", "myocardial infarction", "acute coronary syndrome"] ++
        dedupGo seen2 rest).take 8, pyLower x = pyLower t := by
    intro t ht hts
    have := mem_lower_dedupGo t _ [] ht hts
    rcases this with ⟨y, hy, hly⟩ | habs
    · refine ⟨y, ?_, hly⟩
      rw [htake]
      exact List.mem_append_left _ hy
    · cases habs
  refine ⟨?_, ?_, ?_, ?_, ?_⟩
  · obtain ⟨x, hx, hlx⟩ := hmem "NSTEMI" (by simp) (by decide)
    exact ⟨x, hx, by rw [hlx]; decide⟩
  · obtain ⟨x, hx, hlx⟩ := hmem "myocardial infarction" (by simp) (by decide)
    exact ⟨x, hx, by rw [hlx]; decide⟩
  · obtain ⟨x, hx, hlx⟩ := hmem "acute coronary syndrome" (by simp) (by decide)
    exact ⟨x, hx, by rw [hlx]; decide⟩
  · have hdist := (dedupGo_lower_distinct []
      ([a, "NSTEMI", "myocardial infarction", "acute coronary syndrome"] ++ rest)).2
    rw [hsplit] at hdist
    exact List.Pairwise.sublist (List.take_sublist 8 _) hdist
  · exact List.length_take_le 8 _

theorem coder_keywords_nstemi_witness :
    (∃ x ∈ extract_diagnoses { SoapNote.empty with assessment := some "Acute NSTEMI" } [],
        pyLower x = "nstemi") ∧
    (∃ x ∈ extract_diagnoses { SoapNote.empty with assessment := some "Acute NSTEMI" } [],
        pyLower x = "myocardial infarction") ∧
    (∃ x ∈ extract_diagnoses { SoapNote.empty with assessment := some "Acute NSTEMI" } [],
        pyLower x = "acute coronary syndrome") ∧
    List.Pairwise (fun u v => pyLower u ≠ pyLower v)
      (extract_diagnoses { SoapNote.empty with assessment := some "Acute NSTEMI" } []) ∧
    (extract_diagnoses { SoapNote.empty with assessment := some "Acute NSTEMI" } []).length ≤ 8 :=
  coder_keywords_nstemi "Acute NSTEMI" SoapNote.empty [] (by decide)

/-! ## JSON round-trip lemmas for the talking-points parser -/

theorem skipWs_cons (c : Char) (cs : List Char) (h : isWsChar c = false) :
    skipWs (c :: cs) = c :: cs := by
  simp [skipWs, h]

theorem psb_close (f : Nat) (rest : List Char) :
    parseStringBody (f + 1) ('"' :: rest) = some ([], rest) := rfl

theorem psb_esc_quote (f : Nat) (tail : List Char) :
    parseStringBody (f + 1) ('\\' :: '"' :: tail) =
      match parseStringBody f tail with
      | none => none
      | some (s, r) => some ('"' :: s, r) := rfl

theorem psb_esc_backslash (f : Nat) (tail : List Char) :
    parseStringBody (f + 1) ('\\' :: '\\' :: tail) =
      match parseStringBody f tail with
      | none => none
      | some (s, r) => some ('\\' :: s, r) := rfl

theorem psb_plain (f : Nat) (c : Char) (tail : List Char)
    (h1 : c ≠ '"') (h2 : c ≠ '\\') (h3 : ¬ c.toNat < 32) :
    parseStringBody (f + 1) (c :: tail) =
      match parseStringBody f tail with
      | none => none
      | some (s, r) => some (c :: s, r) := by
  rw [parseStringBody.eq_def]
  simp only []
  rw [if_neg h1, if_neg h2, if_neg h3]

theorem parseStringBody_escChars (cs : List Char) :
    ∀ (f : Nat) (rest : List Char),
      (cs.flatMap RebuttalAgent.escChar).length + 1 ≤ f →
      (∀ c ∈ cs, 32 ≤ c.toNat) →
      parseStringBody f (cs.flatMap RebuttalAgent.escChar ++ '"' :: rest) =
        some (cs, rest) := by
  induction cs with
  | nil =>
    intro f rest hf _
    obtain ⟨f', rfl⟩ : ∃ f', f = f' + 1 := ⟨f - 1, by omega⟩
    exact psb_close f' rest
  | cons c cs ih =>
    intro f rest hf h
    have hc := h c (List.mem_cons_self c cs)
    have hrest : ∀ x ∈ cs, 32 ≤ x.toNat :=
      fun x hx => h x (List.mem_cons_of_mem c hx)
    obtain ⟨f', rfl⟩ : ∃ f', f = f' + 1 := ⟨f - 1, by omega⟩
    by_cases hq : c = '"'
    · subst hq
      have hlen : (('"' :: cs).flatMap RebuttalAgent.escChar).length =
          (cs.flatMap RebuttalAgent.escChar).length + 2 := by
        simp [RebuttalAgent.escChar]
      show parseStringBody (f' + 1)
        ('\\' :: '"' :: (cs.flatMap RebuttalAgent.escChar ++ '"' :: rest)) = _
      rw [psb_esc_quote, ih f' rest (by omega) hrest]
    · by_cases hbs : c = '\\'
      · subst hbs
        have hlen : (('\\' :: cs).flatMap RebuttalAgent.escChar).length =
            (cs.flatMap RebuttalAgent.escChar).length + 2 := by
          simp [RebuttalAgent.escChar]
        show parseStringBody (f' + 1)
          ('\\' :: '\\' :: (cs.flatMap RebuttalAgent.escChar ++ '"' :: rest)) = _
        rw [psb_esc_backslash, ih f' rest (by omega) hrest]
      · have hlen : ((c :: cs).flatMap RebuttalAgent.escChar).length =
            (cs.flatMap RebuttalAgent.escChar).length + 1 := by
          simp [RebuttalAgent.escChar, hq, hbs]
        have hstep : (c :: cs).flatMap RebuttalAgent.escChar ++ '"' :: rest =
            c :: (cs.flatMap RebuttalAgent.escChar ++ '"' :: rest) := by
          simp [RebuttalAgent.escChar, hq, hbs]
        rw [hstep, psb_plain f' c _ hq hbs (by omega), ih f' rest (by omega) hrest]

theorem parseStringBody_escString (s : String) (rest : List Char)
    (h : ∀ c ∈ s.data, 32 ≤ c.toNat) :
    parseStringBody ((RebuttalAgent.escString s ++ '"' :: rest).length + 1)
        (RebuttalAgent.escString s ++ '"' :: rest) =
      some (s.data, rest) := by
  show parseStringBody _ (s.data.flatMap RebuttalAgent.escChar ++ '"' :: rest) =
    some (s.data, rest)
  apply parseStringBody_escChars s.data _ rest _ h
  simp only [RebuttalAgent.escString, List.length_append, List.length_cons]
  omega

theorem parseJVal_str (fuel : Nat) (s : String) (rest : List Char)
    (hs : ∀ c ∈ s.data, 32 ≤ c.toNat) :
    parseJVal (fuel + 1) ('"' :: (RebuttalAgent.escString s ++ '"' :: rest)) =
      some (.jstr s, rest) := by
  simp only [parseJVal]
  rw [skipWs_cons '"' _ (by decide)]
  simp only [reduceIte]
  rw [parseStringBody_escString s rest hs]

theorem parseArrItems_last (fuel : Nat) (s : String) (rest : List Char)
    (hs : ∀ c ∈ s.data, 32 ≤ c.toNat) :
    parseArrItems (fuel + 2)
      ('"' :: (RebuttalAgent.escString s ++ '"' :: ']' :: rest)) =
      some ([.jstr s], rest) := by
  simp only [parseArrItems]
  rw [parseJVal_str fuel s (']' :: rest) hs]
  rfl

theorem parseArrItems_cons (fuel : Nat) (s : String) (tail : List Char)
    (vs : List JVal) (rest : List Char)
    (hs : ∀ c ∈ s.data, 32 ≤ c.toNat)
    (h : parseArrItems (fuel + 1) tail = some (vs, rest)) :
    parseArrItems (fuel + 2)
      ('"' :: (RebuttalAgent.escString s ++ '"' :: ',' :: tail)) =
      some (.jstr s :: vs, rest) := by
  simp only [parseArrItems]
  rw [parseJVal_str fuel s (',' :: tail) hs]
  simp only []
  rw [skipWs_cons ',' _ (by decide)]
  show (match parseArrItems (fuel + 1) tail with
        | some (vs, r2) => some (JVal.jstr s :: vs, r2)
        | none => none) = _
  rw [h]

theorem parseJVal_arr_quote (fuel : Nat) (cs : List Char) :
    parseJVal (fuel + 1) ('[' :: '"' :: cs) =
      match parseArrItems fuel ('"' :: cs) with
      | some (xs, r2) => some (.jarr xs, r2)
      | none => none := by
  simp only [parseJVal]
  rfl

theorem parseJVal_render3 (fuel : Nat) (a b c : String)
    (ha : ∀ x ∈ a.data, 32 ≤ x.toNat)
    (hb : ∀ x ∈ b.data, 32 ≤ x.toNat)
    (hc : ∀ x ∈ c.data, 32 ≤ x.toNat) :
    parseJVal (fuel + 5) ((RebuttalAgent.render3 a b c).data) =
      some (.jarr [.jstr a, .jstr b, .jstr c], []) := by
  have hdata : (RebuttalAgent.render3 a b c).data =
      '[' :: ('"' :: (RebuttalAgent.escString a ++ '"' :: ',' ::
        ('"' :: (RebuttalAgent.escString b ++ '"' :: ',' ::
          ('"' :: (RebuttalAgent.escString c ++ '"' :: ']' :: [])))))) := by
    show '[' :: RebuttalAgent.render3mid a b c ++ [']'] = _
    simp [RebuttalAgent.render3mid]
  rw [hdata]
  have hlast : parseArrItems (fuel + 2)
      ('"' :: (RebuttalAgent.escString c ++ '"' :: ']' :: [])) =
      some ([.jstr c], []) := parseArrItems_last fuel c [] hc
  have hmid : parseArrItems (fuel + 3)
      ('"' :: (RebuttalAgent.escString b ++ '"' :: ',' ::
        ('"' :: (RebuttalAgent.escString c ++ '"' :: ']' :: [])))) =
      some ([.jstr b, .jstr c], []) := by
    have := parseArrItems_cons (fuel + 1) b
      ('"' :: (RebuttalAgent.escString c ++ '"' :: ']' :: [])) [.jstr c] [] hb
      (by rw [show fuel + 1 + 1 = fuel + 2 from rfl]; exact hlast)
    rw [show fuel + 1 + 2 = fuel + 3 from rfl] at this
    exact this
  have htop : parseArrItems (fuel + 4)
      ('"' :: (RebuttalAgent.escString a ++ '"' :: ',' ::
        ('"' :: (RebuttalAgent.escString b ++ '"' :: ',' ::
          ('"' :: (RebuttalAgent.escString c ++ '"' :: ']' :: [])))))) =
      some ([.jstr a, .jstr b, .jstr c], []) := by
    have := parseArrItems_cons (fuel + 2) a
      ('"' :: (RebuttalAgent.escString b ++ '"' :: ',' ::
        ('"' :: (RebuttalAgent.escString c ++ '"' :: ']' :: []))))
      [.jstr b, .jstr c] [] ha
      (by rw [show fuel + 2 + 1 = fuel + 3 from rfl]; exact hmid)
    rw [show fuel + 2 + 2 = fuel + 4 from rfl] at this
    exact this
  rw [show fuel + 5 = (fuel + 4) + 1 from rfl, parseJVal_arr_quote (fuel + 4), htop]

theorem json_loads_render3 (a b c : String)
    (ha : ∀ x ∈ a.data, 32 ≤ x.toNat)
    (hb : ∀ x ∈ b.data, 32 ≤ x.toNat)
    (hc : ∀ x ∈ c.data, 32 ≤ x.toNat) :
    json_loads (RebuttalAgent.render3 a b c) =
      some (.jarr [.jstr a, .jstr b, .jstr c]) := by
  unfold json_loads
  have hlen : (RebuttalAgent.render3 a b c).data.length + 1 =
      ((RebuttalAgent.escString a).length + (RebuttalAgent.escString b).length +
        (RebuttalAgent.escString c).length + 6) + 5 := by
    show ('[' :: RebuttalAgent.render3mid a b c ++ [']']).length + 1 = _
    simp [RebuttalAgent.render3mid]
    omega
  rw [hlen, parseJVal_render3 _ a b c ha hb hc]
  rfl

theorem stripChars_ends (c d : Char) (mid : List Char)
    (hc : isWsChar c = false) (hd : isWsChar d = false) :
    stripChars (c :: mid ++ [d]) = c :: mid ++ [d] := by
  unfold stripChars
  have h1 : List.dropWhile isWsChar (c :: mid ++ [d]) = c :: mid ++ [d] := by
    simp [List.dropWhile_cons, hc]
  have h2 : (c :: mid ++ [d]).reverse = d :: (mid.reverse ++ [c]) := by
    simp
  have h3 : List.dropWhile isWsChar (d :: (mid.reverse ++ [c])) =
      d :: (mid.reverse ++ [c]) := by
    simp [List.dropWhile_cons, hd]
  rw [h1, h2, h3, ← h2, List.reverse_reverse]

theorem pyStrip_render3 (a b c : String) :
    pyStrip (RebuttalAgent.render3 a b c) = RebuttalAgent.render3 a b c := by
  show (⟨stripChars ('[' :: RebuttalAgent.render3mid a b c ++ [']'])⟩ : String) = _
  rw [stripChars_ends '[' ']' _ (by decide) (by decide)]
  rfl

theorem splitGo_no_backtick (tok : List Char) (cs : List Char) :
    ∀ (fuel : Nat) (acc : List Char), '`' ∉ cs →
      splitGo ('`' :: tok) fuel cs acc = [acc.reverse ++ cs] := by
  induction cs with
  | nil =>
    intro fuel acc _
    cases fuel <;> simp [splitGo]
  | cons c cs ih =>
    intro fuel acc h
    have hc : c ≠ '`' := by
      intro he
      exact h (by rw [← he]; exact List.mem_cons_self _ _)
    have htail : '`' ∉ cs := fun hm => h (List.mem_cons_of_mem _ hm)
    cases fuel with
    | zero => simp [splitGo]
    | succ fuel =>
      have hgc : ('`' = c) = False := eq_false (fun he => hc he.symm)
      have hhm : headMatches ('`' :: tok) (c :: cs) = false := by
        simp [headMatches, hgc]
      rw [splitGo]
      · rw [if_neg (by rw [hhm]; exact Bool.false_ne_true), ih fuel (c :: acc) htail]
        simp

theorem pyContains_backtick (s needle : String) (hs : '`' ∉ s.data)
    (tok : List Char) (hneedle : needle.data = '`' :: tok) :
    pyContains s needle = false := by
  unfold pyContains pySplit splitOnL
  rw [hneedle, splitGo_no_backtick tok s.data _ [] hs]
  rfl

theorem stripFence_id (s : String) (h : '`' ∉ s.data) :
    RebuttalAgent.stripFence s = s := by
  unfold RebuttalAgent.stripFence
  rw [pyContains_backtick s _ h _ rfl, pyContains_backtick s _ h _ rfl]
  rfl

theorem escString_no_backtick (s : String) (hs : RebuttalAgent.safeLit s) :
    '`' ∉ RebuttalAgent.escString s := by
  intro hm
  unfold RebuttalAgent.escString at hm
  obtain ⟨c, hcm, hce⟩ := List.mem_flatMap.mp hm
  unfold RebuttalAgent.escChar at hce
  by_cases h1 : c = '"'
  · rw [if_pos h1] at hce
    simp at hce
  · rw [if_neg h1] at hce
    by_cases h2 : c = '\\'
    · rw [if_pos h2] at hce
      simp at hce
    · rw [if_neg h2] at hce
      simp at hce
      exact (hs c hcm).1 hce.symm

theorem render3_no_backtick (a b c : String)
    (ha : RebuttalAgent.safeLit a) (hb : RebuttalAgent.safeLit b)
    (hc : RebuttalAgent.safeLit c) :
    '`' ∉ (RebuttalAgent.render3 a b c).data := by
  intro hmem
  have hm2 : '`' ∈ '[' :: RebuttalAgent.render3mid a b c ++ [']'] := hmem
  simp [RebuttalAgent.render3mid] at hm2
  rcases hm2 with hma | hmb | hmc
  · exact escString_no_backtick a ha hma
  · exact escString_no_backtick b hb hmb
  · exact escString_no_backtick c hc hmc

/-! ### The fenced case: splitting the ```json fence off symbolically -/

theorem splitGo_tail0_any (sep : List Char) (f : Nat) (acc : List Char) :
    splitGo sep f [] acc = [acc.reverse] := by
  cases f <;> rfl

theorem splitGo_skip (tok : List Char) :
    ∀ (A : List Char), '`' ∉ A → ∀ (f : Nat) (cs acc : List Char),
      splitGo ('`' :: tok) (A.length + f) (A ++ cs) acc =
        splitGo ('`' :: tok) f cs (A.reverse ++ acc) := by
  intro A
  induction A with
  | nil =>
    intro _ f cs acc
    simp
  | cons c A ih =>
    intro hA f cs acc
    have hc : c ≠ '`' := by
      intro he
      exact hA (by rw [← he]; exact List.mem_cons_self _ _)
    have hA' : '`' ∉ A := fun hm => hA (List.mem_cons_of_mem _ hm)
    have hgc : ('`' = c) = False := eq_false (fun he => hc he.symm)
    have hhm : headMatches ('`' :: tok) (c :: (A ++ cs)) = false := by
      simp [headMatches, hgc]
    rw [List.cons_append,
      show (c :: A).length + f = (A.length + f) + 1 from by
        simp only [List.length_cons]; omega]
    rw [splitGo]
    · rw [if_neg (by rw [hhm]; exact Bool.false_ne_true), ih hA' f cs (c :: acc)]
      simp

theorem splitGo_sep7_tail1 (f : Nat) (acc : List Char) :
    splitGo ('`' :: '`' :: '`' :: 'j' :: 's' :: 'o' :: 'n' :: []) f ['`'] acc =
      [acc.reverse ++ ['`']] := by
  cases f with
  | zero => rfl
  | succ f =>
    show splitGo ('`' :: '`' :: '`' :: 'j' :: 's' :: 'o' :: 'n' :: []) f [] ('`' :: acc) =
      [acc.reverse ++ ['`']]
    rw [splitGo_tail0_any]
    simp

theorem splitGo_sep7_tail2 (f : Nat) (acc : List Char) :
    splitGo ('`' :: '`' :: '`' :: 'j' :: 's' :: 'o' :: 'n' :: []) f ['`', '`'] acc =
      [acc.reverse ++ ['`', '`']] := by
  cases f with
  | zero => rfl
  | succ f =>
    show splitGo ('`' :: '`' :: '`' :: 'j' :: 's' :: 'o' :: 'n' :: []) f ['`'] ('`' :: acc) =
      [acc.reverse ++ ['`', '`']]
    rw [splitGo_sep7_tail1]
    simp

theorem splitGo_sep7_tail3 (f : Nat) (acc : List Char) :
    splitGo ('`' :: '`' :: '`' :: 'j' :: 's' :: 'o' :: 'n' :: []) (f + 1) ['`', '`', '`'] acc =
      [acc.reverse ++ ['`', '`', '`']] := by
  show splitGo ('`' :: '`' :: '`' :: 'j' :: 's' :: 'o' :: 'n' :: []) f ['`', '`'] ('`' :: acc) =
    [acc.reverse ++ ['`', '`', '`']]
  rw [splitGo_sep7_tail2]
  simp

theorem splitGo_sep3_match (f : Nat) (acc : List Char) :
    splitGo ('`' :: '`' :: '`' :: []) (f + 1) ['`', '`', '`'] acc =
      [acc.reverse, []] := by
  show acc.reverse :: splitGo ('`' :: '`' :: '`' :: []) f [] [] = [acc.reverse, []]
  rw [splitGo_tail0_any]
  rfl

theorem stripChars_nl_wrap (mid : List Char) :
    stripChars ('\n' :: '[' :: (mid ++ [']'] ++ ['\n'])) =
      '[' :: (mid ++ [']']) := by
  unfold stripChars
  have h1 : List.dropWhile isWsChar ('\n' :: '[' :: (mid ++ [']'] ++ ['\n'])) =
      '[' :: (mid ++ [']'] ++ ['\n']) := by
    rw [List.dropWhile_cons, if_pos (by decide), List.dropWhile_cons,
      if_neg (by decide)]
  have h2 : ('[' :: (mid ++ [']'] ++ ['\n'])).reverse =
      '\n' :: ']' :: (mid.reverse ++ ['[']) := by
    simp
  have h3 : List.dropWhile isWsChar ('\n' :: ']' :: (mid.reverse ++ ['['])) =
      ']' :: (mid.reverse ++ ['[']) := by
    rw [List.dropWhile_cons, if_pos (by decide), List.dropWhile_cons,
      if_neg (by decide)]
  rw [h1, h2, h3]
  simp

/-- Round trip through the fence-stripping heuristic: stripping a
backtick-free bracketed text wrapped in a tagged ```json fence recovers the
text exactly (the source's `split("```json")[1].split("```")[0]` path plus
the surrounding strips). -/
theorem stripFence_fenceWrap (X : String) (mid : List Char)
    (hX : X.data = '[' :: mid ++ [']']) (hbt : '`' ∉ X.data) :
    pyStrip (RebuttalAgent.stripFence (pyStrip (RebuttalAgent.fenceWrap X))) = X := by
  have ht : (RebuttalAgent.fenceWrap X).data =
      '`' :: '`' :: '`' :: 'j' :: 's' :: 'o' :: 'n' :: '\n' ::
        (X.data ++ ('\n' :: '`' :: '`' :: '`' :: [])) := rfl
  -- the outer strip is the identity: the fenced text has no border whitespace
  have hshape : (RebuttalAgent.fenceWrap X).data =
      '`' :: ('`' :: '`' :: 'j' :: 's' :: 'o' :: 'n' :: '\n' ::
        (X.data ++ ['\n', '`', '`'])) ++ ['`'] := by
    rw [ht]
    simp
  have hstrip1 : pyStrip (RebuttalAgent.fenceWrap X) = RebuttalAgent.fenceWrap X := by
    show (⟨stripChars (RebuttalAgent.fenceWrap X).data⟩ : String) = _
    rw [hshape, stripChars_ends '`' '`' _ (by decide) (by decide), ← hshape]
  -- the split on the 7-character fence tag
  have hAbt : '`' ∉ '\n' :: (X.data ++ ['\n']) := by
    intro hm
    simp at hm
    exact hbt hm
  have hstep1 : splitGo ("```json").data
      ((RebuttalAgent.fenceWrap X).data.length + 1) (RebuttalAgent.fenceWrap X).data [] =
      [] :: splitGo ("```json").data ((RebuttalAgent.fenceWrap X).data.length)
        ('\n' :: (X.data ++ ('\n' :: '`' :: '`' :: '`' :: []))) [] := rfl
  have hfuel : (RebuttalAgent.fenceWrap X).data.length =
      ('\n' :: (X.data ++ ['\n'])).length + 10 := by
    rw [ht]
    simp
  have hAB : '\n' :: (X.data ++ ('\n' :: '`' :: '`' :: '`' :: [])) =
      ('\n' :: (X.data ++ ['\n'])) ++ ['`', '`', '`'] := by
    simp
  have hsplit7 : pySplit (RebuttalAgent.fenceWrap X) "```json" =
      ["", ⟨('\n' :: (X.data ++ ['\n'])) ++ ['`', '`', '`']⟩] := by
    show (splitGo ("```json").data ((RebuttalAgent.fenceWrap X).data.length + 1)
        (RebuttalAgent.fenceWrap X).data []).map (fun cs => (⟨cs⟩ : String)) = _
    rw [hstep1, hfuel, hAB,
      show ("```json").data = '`' :: '`' :: '`' :: 'j' :: 's' :: 'o' :: 'n' :: [] from rfl]
    rw [splitGo_skip ('`' :: '`' :: 'j' :: 's' :: 'o' :: 'n' :: [])
      ('\n' :: (X.data ++ ['\n'])) hAbt 10 ['`', '`', '`'] []]
    rw [show (10 : Nat) = 9 + 1 from rfl, splitGo_sep7_tail3]
    simp only [List.map_cons, List.map_nil, List.append_nil, List.reverse_reverse]
  -- the split on the closing fence
  have hsplit3 : pySplit (⟨('\n' :: (X.data ++ ['\n'])) ++ ['`', '`', '`']⟩ : String) "```" =
      [⟨'\n' :: (X.data ++ ['\n'])⟩, ""] := by
    show (splitGo ("```").data
        ((('\n' :: (X.data ++ ['\n'])) ++ ['`', '`', '`']).length + 1)
        (('\n' :: (X.data ++ ['\n'])) ++ ['`', '`', '`']) []).map (fun cs => (⟨cs⟩ : String)) = _
    rw [show ("```").data = '`' :: '`' :: '`' :: [] from rfl,
      show (('\n' :: (X.data ++ ['\n'])) ++ ['`', '`', '`']).length + 1 =
        ('\n' :: (X.data ++ ['\n'])).length + 4 from by simp]
    rw [splitGo_skip ('`' :: '`' :: []) ('\n' :: (X.data ++ ['\n'])) hAbt 4
      ['`', '`', '`'] []]
    rw [show (4 : Nat) = 3 + 1 from rfl, splitGo_sep3_match]
    simp only [List.map_cons, List.map_nil, List.append_nil, List.reverse_reverse]
  have hcontains : pyContains (RebuttalAgent.fenceWrap X) "```json" = true := by
    unfold pyContains
    rw [hsplit7]
    rfl
  have hinner : pyPart0 (pySplit (pyPart1 (pySplit (RebuttalAgent.fenceWrap X) "```json")) "```") =
      (⟨'\n' :: (X.data ++ ['\n'])⟩ : String) := by
    rw [hsplit7]
    show pyPart0 (pySplit (⟨('\n' :: (X.data ++ ['\n'])) ++ ['`', '`', '`']⟩ : String) "```") = _
    rw [hsplit3]
    rfl
  rw [hstrip1]
  unfold RebuttalAgent.stripFence
  rw [if_pos hcontains, hinner]
  show (⟨stripChars ('\n' :: (X.data ++ ['\n']))⟩ : String) = X
  rw [hX]
  simp only [List.cons_append]
  rw [stripChars_nl_wrap,
    show ('[' : Char) :: (mid ++ [']']) = '[' :: mid ++ [']'] from
      (List.cons_append '[' mid [']']).symm,
    ← hX]

/-- Unfolding equation for the parser when structured decoding succeeds. -/
theorem parse_talking_points_eq_some (response : String) (v : JVal)
    (h : json_loads (pyStrip (RebuttalAgent.stripFence (pyStrip response))) = some v) :
    RebuttalAgent.parse_talking_points response = v := by
  simp only [RebuttalAgent.parse_talking_points]
  rw [h]

/-- Unfolding equation for the parser when structured decoding fails: the
bare `except` fallback wraps the stripped response. -/
theorem parse_talking_points_eq_none (response : String)
    (h : json_loads (pyStrip (RebuttalAgent.stripFence (pyStrip response))) = none) :
    RebuttalAgent.parse_talking_points response = .jarr [.jstr (pyStrip response)] := by
  simp only [RebuttalAgent.parse_talking_points]
  rw [h]

set_option maxHeartbeats 3200000 in
/-- C5 counterexample: (i) a response that IS a well-formed 3-element JSON
string array but whose first element contains three backticks: `json.loads`
decodes it to exactly the 3 strings, yet the parser's fence heuristic
(`"```" in text`) fires, mangles the text, decoding fails, and the result is
the 1-element fallback — refuting the original claim's unconditional
3-element reading; (ii) a decode-failing response with a trailing space:
the fallback wraps `response.strip()`, not `response`, so the original
claim's "raw response text" reading is also refuted. -/
theorem rebuttal_talking_points_cex :
    json_loads "[\"a```b\",\"x\",\"y\"]" =
      some (.jarr [.jstr "a```b", .jstr "x", .jstr "y"]) ∧
    RebuttalAgent.parse_talking_points "[\"a```b\",\"x\",\"y\"]" =
      .jarr [.jstr "[\"a```b\",\"x\",\"y\"]"] ∧
    json_loads "no quorum" = none ∧
    RebuttalAgent.parse_talking_points "no quorum " = .jarr [.jstr "no quorum"] ∧
    pyStrip "no quorum " = "no quorum" :=
  ⟨rfl, rfl, rfl, rfl, rfl⟩

/-- C5 (amended): for a response that renders 3 strings free of backticks
and raw control characters as a JSON array (minimally escaped), bare or
wrapped in a tagged ```json fence, the parser returns exactly those 3
strings; whenever structured decoding of the (stripped, fence-stripped)
text fails, the parser returns the 1-element array wrapping the
whitespace-stripped raw response; the function is total (never raises). -/
theorem rebuttal_talking_points_spec (a b c resp : String)
    (ha : RebuttalAgent.safeLit a) (hb : RebuttalAgent.safeLit b)
    (hc : RebuttalAgent.safeLit c) :
    RebuttalAgent.parse_talking_points (RebuttalAgent.render3 a b c) =
      .jarr [.jstr a, .jstr b, .jstr c] ∧
    RebuttalAgent.parse_talking_points
        (RebuttalAgent.fenceWrap (RebuttalAgent.render3 a b c)) =
      .jarr [.jstr a, .jstr b, .jstr c] ∧
    (json_loads (pyStrip (RebuttalAgent.stripFence (pyStrip resp))) = none →
      RebuttalAgent.parse_talking_points resp = .jarr [.jstr (pyStrip resp)]) := by
  have ha2 : ∀ x ∈ a.data, 32 ≤ x.toNat := fun x hx => (ha x hx).2
  have hb2 : ∀ x ∈ b.data, 32 ≤ x.toNat := fun x hx => (hb x hx).2
  have hc2 : ∀ x ∈ c.data, 32 ≤ x.toNat := fun x hx => (hc x hx).2
  have hbt : '`' ∉ (RebuttalAgent.render3 a b c).data :=
    render3_no_backtick a b c ha hb hc
  refine ⟨?_, ?_, ?_⟩
  · refine parse_talking_points_eq_some _ _ ?_
    rw [pyStrip_render3, stripFence_id _ hbt, pyStrip_render3]
    exact json_loads_render3 a b c ha2 hb2 hc2
  · refine parse_talking_points_eq_some _ _ ?_
    rw [stripFence_fenceWrap (RebuttalAgent.render3 a b c)
      (RebuttalAgent.render3mid a b c) rfl hbt]
    exact json_loads_render3 a b c ha2 hb2 hc2
  · intro hfail
    exact parse_talking_points_eq_none resp hfail

set_option maxHeartbeats 1600000 in
theorem rebuttal_talking_points_spec_witness :
    RebuttalAgent.parse_talking_points
        (RebuttalAgent.render3 "alpha" "beta" "gamma") =
      .jarr [.jstr "alpha", .jstr "beta", .jstr "gamma"] ∧
    RebuttalAgent.parse_talking_points
        (RebuttalAgent.fenceWrap (RebuttalAgent.render3 "alpha" "beta" "gamma")) =
      .jarr [.jstr "alpha", .jstr "beta", .jstr "gamma"] ∧
    RebuttalAgent.parse_talking_points "not json" = .jarr [.jstr "not json"] := by
  have h := rebuttal_talking_points_spec "alpha" "beta" "gamma" "not json"
    (by decide) (by decide) (by decide)
  exact ⟨h.1, h.2.1, h.2.2 (by rfl)⟩
